import Mathlib

/-!
Verification of the brightness-analysis engine of the brightness-detector
repository (`src/analysis/brightness_analyzer.py`), shallowly embedded in
Lean 4.  Frames are rasters of 8-bit samples, brightness maps are rational
matrices (exact models of the float32 values arising from 8-bit inputs),
and the NumPy / OpenCV library calls used by the analyzer are modelled by
explicit Lean functions (`np.max`, `np.where`, `np.mean`, `np.clip`,
`cv2.normalize`, `cv2.calcHist`, `cv2.split`, `cv2.cvtColor`).  Buffer
identity and in-place mutation (ndarray aliasing, `.copy()`) are modelled
by threading an explicit store of frame buffers addressed by ids.
-/

namespace BD

/-- A color pixel: the three 8-bit channel samples in storage order
(channel 0, channel 1, channel 2). -/
abbrev ColorPix := Nat × Nat × Nat

/-- A raster frame: 3-channel color or single-channel grayscale, as rows of
pixels (row-major, index `[y][x]`). -/
inductive Frame where
  | color (rows : List (List ColorPix))
  | gray (rows : List (List Nat))
  deriving DecidableEq

instance : Inhabited Frame := ⟨Frame.gray []⟩

/-- A brightness map: one rational value per pixel, rows-of-cells. -/
abbrev BMap := List (List Rat)

/-- `rows` is a `h × w` rectangular matrix. -/
def Dims (rows : List (List α)) (h w : Nat) : Prop :=
  rows.length = h ∧ ∀ row ∈ rows, row.length = w

/-- Frame well-formedness: rectangular with the given positive dimensions. -/
def FrameDims (f : Frame) (h w : Nat) : Prop :=
  match f with
  | .color rows => Dims rows h w
  | .gray rows => Dims rows h w

/-- Cell of a brightness map at coordinate `(x, y)` (0 outside). -/
def bmapAt (m : BMap) (x y : Nat) : Rat := (m.getD y []).getD x 0

/-- Pixel of a color raster at `(x, y)` (black outside). -/
def colorAt (rows : List (List ColorPix)) (x y : Nat) : ColorPix :=
  (rows.getD y []).getD x (0, 0, 0)

/-- Pixel of a gray raster at `(x, y)` (0 outside). -/
def grayAt (rows : List (List Nat)) (x y : Nat) : Nat :=
  (rows.getD y []).getD x 0

/-- `BrightnessAnalyzer.calculate_brightness`: 3-channel input is averaged
per pixel, `(r + g + b) / 3` in floating point (exact here, on rationals);
grayscale input is cast to float unchanged. -/
def calculate_brightness (image : Frame) : BMap :=
  match image with
  | .color rows =>
      rows.map (fun row => row.map (fun (p : ColorPix) => (((p.1 : Rat) + p.2.1 + p.2.2) / 3)))
  | .gray rows =>
      rows.map (fun row => row.map (fun (v : Nat) => (v : Rat)))

/-- `np.max` over a 2-D array; `none` models the `ValueError` NumPy raises
on a zero-size array. -/
def npMax (m : BMap) : Option Rat := m.flatten.max?

/-- `np.max` as exception-raising code: raising the NumPy `ValueError` on a
zero-size reduction. -/
def npMaxE (m : BMap) : Except String Rat :=
  match npMax m with
  | none => .error "zero-size array to reduction operation maximum which has no identity"
  | some v => .ok v

/-- `np.where(brightness == v)`: the row-major list of `(y, x)` coordinates
whose cell equals `v`. -/
def npWhereEq (m : BMap) (v : Rat) : List (Nat × Nat) :=
  (m.enum.map (fun yrow =>
    yrow.2.enum.filterMap (fun xc =>
      if xc.2 = v then some (yrow.1, xc.1) else none))).flatten

/-- `BrightnessAnalyzer.find_brightest_point`: `np.max`, then
`np.where(brightness == max)`, then the first coordinate pair, `(0, 0)` if
the equality scan found none.  `np.max` raises on a zero-size array. -/
def find_brightest_point (brightness : BMap) : Except String (Nat × Nat) :=
  match npMax brightness with
  | none => .error "zero-size array to reduction operation maximum which has no identity"
  | some max_val =>
      match npWhereEq brightness max_val with
      | [] => .ok (0, 0)
      | (y, x) :: _ => .ok (x, y)

/-- `np.mean` over a 2-D array: total sum over total count. -/
def npMean (m : BMap) : Rat :=
  (m.map List.sum).sum / ((m.map List.length).sum : Nat)

/-- Python slice `l[lo:hi]`. -/
def pySlice (l : List α) (lo hi : Nat) : List α := (l.take hi).drop lo

/-- `BrightnessAnalyzer.calculate_average_brightness`: mean of the square
window of the given radius around `point`, clipped to the map's bounds by
the slice arithmetic (`max(0, ·)` is Nat subtraction here). -/
def calculate_average_brightness (brightness : BMap) (point : Nat × Nat)
    (radius : Nat) : Rat :=
  let x := point.1
  let y := point.2
  let height := brightness.length
  let width := (brightness.headD []).length
  let x_min := x - radius
  let x_max := min width (x + radius + 1)
  let y_min := y - radius
  let y_max := min height (y + radius + 1)
  let region := (pySlice brightness y_min y_max).map (fun row => pySlice row x_min x_max)
  npMean region

/-- `cvRound`: round half to even, as OpenCV does (`Rat.floor` is the
executable floor, equal to `⌊q⌋`). -/
def cvRound (q : Rat) : Int :=
  let f := q.floor
  let r := q - (f : Rat)
  if r < 1/2 then f
  else if 1/2 < r then f + 1
  else if f % 2 = 0 then f else f + 1

/-- `saturate_cast<uchar>`: clamp an integer to `[0, 255]`. -/
def saturateCastU8 (n : Int) : Nat := (min 255 (max 0 n)).toNat

/-- `DBL_EPSILON`, the threshold OpenCV's min-max normalization uses to
decide whether the value range is degenerate. -/
def dblEpsilon : Rat := 1 / 2 ^ 52

/-- `cv2.normalize(..., alpha=0, beta=255, NORM_MINMAX, CV_8U)`: linear
rescale sending the array's own min to 0 and max to 255 (scale 0 when the
range is degenerate), rounded and saturated to 8 bits. -/
def normalizeMinMax (m : BMap) : List (List Nat) :=
  match npMax m, m.flatten.min? with
  | some smax, some smin =>
      let scale : Rat := if dblEpsilon < smax - smin then 255 / (smax - smin) else 0
      let shift : Rat := 0 - smin * scale
      m.map (fun row => row.map (fun v => saturateCastU8 (cvRound (v * scale + shift))))
  | _, _ => m.map (fun row => row.map (fun _ => 0))

/-- `BrightnessAnalyzer.calculate_histogram`: min-max normalize to 8 bits,
then `cv2.calcHist` with 256 bins over `[0, 256)`, i.e. per-value counts. -/
def calculate_histogram (brightness : BMap) : List Nat :=
  let bn := (normalizeMinMax brightness).flatten
  (List.range 256).map (fun b => bn.count b)

/-- All sample values of a frame (every channel of every pixel), as floats,
in storage order; the flattening `np.mean` sees. -/
def frameValues (f : Frame) : List Rat :=
  match f with
  | .color rows => (rows.flatten.map (fun (p : ColorPix) => [(p.1 : Rat), (p.2.1 : Rat), (p.2.2 : Rat)])).flatten
  | .gray rows => rows.flatten.map (fun (v : Nat) => (v : Rat))

/-- The scalar `np.mean` over all samples of a frame (the
`mean_brightness` of `enhance_contrast`). -/
def frameMean (f : Frame) : Rat :=
  (frameValues f).sum / ((frameValues f).length : Nat)

/-- The pixel rows of a color frame (empty for a grayscale frame). -/
def frameColorRows : Frame → List (List ColorPix)
  | .color rows => rows
  | .gray _ => []

/-- The pixel rows of a grayscale frame (empty for a color frame). -/
def frameGrayRows : Frame → List (List Nat)
  | .gray rows => rows
  | .color _ => []

/-- `np.clip(q, lo, hi)`. -/
def npClip (q lo hi : Rat) : Rat := min hi (max lo q)

/-- `astype(np.uint8)` after a clip into `[0, 255]`: truncation toward
zero, which on that range is the floor, taken as a `Nat` (`Rat.floor` is
the executable floor, equal to `⌊q⌋`). -/
def toUint8 (q : Rat) : Nat := (q.floor).toNat

/-- The per-sample contrast formula `mean + factor * (v - mean)` followed
by the clip and the 8-bit cast. -/
def contrastVal (mean factor v : Rat) : Nat :=
  toUint8 (npClip (mean + factor * (v - mean)) 0 255)

/-- `BrightnessAnalyzer.enhance_contrast`: stretch every sample around the
scalar mean of all samples, clip to `[0, 255]`, requantize to 8 bits. -/
def enhance_contrast (image : Frame) (contrast_factor : Rat) : Frame :=
  let mean_brightness := frameMean image
  match image with
  | .color rows =>
      .color (rows.map (fun row => row.map (fun (p : ColorPix) =>
        (contrastVal mean_brightness contrast_factor (p.1 : Rat),
         contrastVal mean_brightness contrast_factor (p.2.1 : Rat),
         contrastVal mean_brightness contrast_factor (p.2.2 : Rat)))))
  | .gray rows =>
      .gray (rows.map (fun row => row.map (fun (v : Nat) =>
        contrastVal mean_brightness contrast_factor (v : Rat))))

/-- The analyzer configuration keys consulted by the analysis code, with
the defaults of `DEFAULT_CONFIG["analysis"]` in `src/utils/config.py`. -/
structure Config where
  average_area_size : Nat := 10
  highlight_color : ColorPix := (255, 0, 0)
  highlight_radius : Nat := 5

def defaultConfig : Config := {}

/-- The heap of live frame buffers: an ndarray is a buffer id into this
store.  `.copy()` allocates a fresh id; in-place drawing overwrites the
contents at an existing id. -/
abbrev Store := List Frame

/-- Contents of the buffer with id `i`. -/
def readStore (s : Store) (i : Nat) : Frame := s.getD i default

/-- Allocate a fresh buffer holding `f` (models `ndarray.copy()` and the
fresh output arrays of NumPy expressions). -/
def allocStore (s : Store) (f : Frame) : Store × Nat := (s ++ [f], s.length)

/-- Overwrite the contents of buffer `i` in place. -/
def writeStore (s : Store) (i : Nat) (f : Frame) : Store := s.set i f

/-- Set one cell of a raster, a no-op out of bounds (OpenCV draw
primitives clip at the canvas edges). -/
def setCell (rows : List (List α)) (x y : Nat) (c : α) : List (List α) :=
  match rows.get? y with
  | some row => rows.set y (row.set x c)
  | none => rows

/-- Color one pixel of a frame, a no-op outside the canvas; on a grayscale
canvas OpenCV uses the first component of the color. -/
def setPixel (f : Frame) (x y : Int) (c : ColorPix) : Frame :=
  if x < 0 ∨ y < 0 then f
  else
    match f with
    | .color rows => .color (setCell rows x.toNat y.toNat c)
    | .gray rows => .gray (setCell rows x.toNat y.toNat c.1)

/-- The offsets around the marked point that `draw_markers` colors: the two
crosshair arms (10 pixels each way) and a ring of the configured radius.
This models the raster footprint of the `cv2.line` / `cv2.circle` calls;
the exact thickness-2 and anti-aliasing geometry of OpenCV, and the glyph
pixels of the two `cv2.putText` labels, are library internals abstracted
here — the claims about the Annotator concern buffer identity and the fact
that the marked content differs from the unmarked content, for which the
always-colored center row/column pixels suffice. -/
def markerOffsets (radius : Nat) : List (Int × Int) :=
  ((List.range 21).map (fun i => ((i : Int) - 10, (0 : Int)))) ++
  ((List.range 21).map (fun i => ((0 : Int), (i : Int) - 10))) ++
  ((List.range (2 * radius + 1)).flatMap (fun i =>
    (List.range (2 * radius + 1)).filterMap (fun j =>
      let dx := (i : Int) - radius
      let dy := (j : Int) - radius
      if (radius : Int) * radius ≤ dx * dx + dy * dy ∧
         dx * dx + dy * dy ≤ ((radius : Int) + 1) * ((radius : Int) + 1)
      then some (dx, dy) else none)))

/-- The pixel-level effect of the marker drawing on a frame's contents. -/
def burnMarkers (cfg : Config) (f : Frame) (point : Nat × Nat) : Frame :=
  (markerOffsets cfg.highlight_radius).foldl
    (fun acc d => setPixel acc ((point.1 : Int) + d.1) ((point.2 : Int) + d.2) cfg.highlight_color)
    f

/-- `BrightnessAnalyzer.draw_markers`: draws the crosshair, circle and text
onto the buffer it is given — `cv2.line` / `cv2.circle` / `cv2.putText`
mutate their first argument in place — and returns that same buffer.  The
two scalar readouts only feed the text labels, whose glyph pixels are
abstracted (see `markerOffsets`). -/
def draw_markers (cfg : Config) (s : Store) (image : Nat) (point : Nat × Nat)
    (max_brightness avg_brightness : Rat) : Store × Nat :=
  (writeStore s image (burnMarkers cfg (readStore s image) point), image)

/-- The result record of `analyze_image` (the metadata bag with the
wall-clock `analysis_time` string is not modelled). -/
structure ImageResult where
  brightest_point : Nat × Nat
  max_brightness : Rat
  average_brightness : Rat
  brightness_histogram : List Nat
  brightest_frame : Nat
  brightest_frame_marked : Nat
  is_video : Bool
  frame_number : Nat
  deriving DecidableEq

/-- `BrightnessAnalyzer.analyze_image`: single-frame analysis.  The enhanced
copy is a fresh buffer; `draw_markers` is handed that same buffer, so the
record's `brightest_frame` and `brightest_frame_marked` ids come back from
the construction below. -/
def analyze_image (cfg : Config) (s : Store) (image : Frame) :
    Except String (Store × ImageResult) := do
  let brightness := calculate_brightness image
  let brightest_point ← find_brightest_point brightness
  let max_brightness ← npMaxE brightness
  let average_brightness :=
    calculate_average_brightness brightness brightest_point cfg.average_area_size
  let histogram := calculate_histogram brightness
  let (s1, copyId) := allocStore s image
  let (s2, enhId) := allocStore s1 (enhance_contrast (readStore s1 copyId) (3/2))
  let (s3, markedId) := draw_markers cfg s2 enhId brightest_point max_brightness average_brightness
  .ok (s3, { brightest_point := brightest_point, max_brightness := max_brightness,
             average_brightness := average_brightness, brightness_histogram := histogram,
             brightest_frame := enhId, brightest_frame_marked := markedId,
             is_video := false, frame_number := 0 })

/-- The running state of a sequence scan (§ Sequence Cursor): the current
running maximum, its point, the id of the copied winning frame, and the
winning index, together with the buffer store. -/
structure ScanState where
  global_max_brightness : Rat
  global_brightest_point : Nat × Nat
  global_brightest_frame : Option Nat
  global_frame_number : Nat
  store : Store
  deriving DecidableEq

/-- The shared per-evaluated-frame body of the two scan loops: brightness,
per-frame max (`np.max` raises on a zero-size frame), and the
strictly-greater running-best update, which copies the frame into a fresh
buffer. -/
def scanStep (st : ScanState) (frame_number : Nat) (frame : Frame) :
    Except String ScanState := do
  let brightness := calculate_brightness frame
  let max_brightness ← npMaxE brightness
  if st.global_max_brightness < max_brightness then
    let pt ← find_brightest_point brightness
    let (s, fid) := allocStore st.store frame
    .ok { global_max_brightness := max_brightness, global_brightest_point := pt,
          global_brightest_frame := some fid, global_frame_number := frame_number,
          store := s }
  else
    .ok st

/-- The `for frame_number, frame in enumerate(frames)` loop of
`analyze_gif`: only indices divisible by the sampling stride are
evaluated. -/
def gifLoop (sample_rate : Nat) (frame_number : Nat) (frames : List Frame)
    (st : ScanState) : Except String ScanState :=
  match frames with
  | [] => .ok st
  | frame :: rest => do
      let st' ← if frame_number % sample_rate = 0
                then scanStep st frame_number frame
                else .ok st
      gifLoop sample_rate (frame_number + 1) rest st'

/-- `cv2.cvtColor(frame, COLOR_BGR2RGB)` under the `len(frame.shape) == 3`
guard of `analyze_video`: reverse the channel order of a color frame,
leave a grayscale frame alone. -/
def cvtColorBGR2RGB (frame : Frame) : Frame :=
  match frame with
  | .color rows => .color (rows.map (fun row => row.map (fun p => (p.2.2, p.2.1, p.1))))
  | .gray rows => .gray rows

/-- The `while True: read()` loop of `analyze_video`: identical body to the
GIF loop except that each evaluated frame is first converted BGR→RGB and
the converted frame is what gets copied on a best-of update.  (The
`self.progress` UI counter the loop also updates is analyzer-object state
never read by the analysis and is not modelled.) -/
def videoLoop (sample_rate : Nat) (frame_count : Nat) (frames : List Frame)
    (st : ScanState) : Except String ScanState :=
  match frames with
  | [] => .ok st
  | frame :: rest => do
      let st' ← if frame_count % sample_rate = 0
                then scanStep st frame_count (cvtColorBGR2RGB frame)
                else .ok st
      videoLoop sample_rate (frame_count + 1) rest st'

/-- The result record of `analyze_video` / `analyze_gif` (metadata bag not
modelled). -/
structure SeqResult where
  brightest_point : Nat × Nat
  max_brightness : Rat
  average_brightness : Rat
  brightness_histogram : List Nat
  brightest_frame : Option Nat
  brightest_frame_marked : Option Nat
  is_video : Bool
  frame_number : Nat
  total_frames : Nat
  fps : Rat
  sample_rate : Nat
  deriving DecidableEq

/-- The shared post-loop tail of `analyze_video` / `analyze_gif`: if a
winning frame was retained, compute its local average, histogram and an
annotated copy (`global_brightest_frame.copy()` is a fresh buffer handed to
`draw_markers`); otherwise zeroed statistics, a 256-entry zero histogram
and null frames. -/
def seqResultOf (cfg : Config) (st : ScanState) (total_frames : Nat)
    (fps : Rat) (sample_rate : Nat) : Store × SeqResult :=
  match st.global_brightest_frame with
  | some fid =>
      let winner := readStore st.store fid
      let brightness := calculate_brightness winner
      let average_brightness :=
        calculate_average_brightness brightness st.global_brightest_point cfg.average_area_size
      let histogram := calculate_histogram brightness
      let (s1, copyId) := allocStore st.store winner
      let (s2, markedId) :=
        draw_markers cfg s1 copyId st.global_brightest_point st.global_max_brightness average_brightness
      (s2, { brightest_point := st.global_brightest_point,
             max_brightness := st.global_max_brightness,
             average_brightness := average_brightness,
             brightness_histogram := histogram,
             brightest_frame := some fid, brightest_frame_marked := some markedId,
             is_video := true, frame_number := st.global_frame_number,
             total_frames := total_frames, fps := fps, sample_rate := sample_rate })
  | none =>
      (st.store,
       { brightest_point := st.global_brightest_point,
         max_brightness := st.global_max_brightness,
         average_brightness := 0,
         brightness_histogram := List.replicate 256 0,
         brightest_frame := none, brightest_frame_marked := none,
         is_video := true, frame_number := st.global_frame_number,
         total_frames := total_frames, fps := fps, sample_rate := sample_rate })

/-- `BrightnessAnalyzer.analyze_video`: the bounded frame source is the
list of frames the capture yields in order; `CAP_PROP_FRAME_COUNT` is its
length and `fps` the reported rate.  There is no zero-frame check: on an
immediately-exhausted source the loop never runs and the null-winner tail
returns a zeroed result. -/
def analyze_video (cfg : Config) (s : Store) (frames : List Frame)
    (sample_rate : Nat) (fps : Rat) : Except String (Store × SeqResult) := do
  let total_frames := frames.length
  let st ← videoLoop sample_rate 0 frames
    { global_max_brightness := 0, global_brightest_point := (0, 0),
      global_brightest_frame := none, global_frame_number := 0, store := s }
  .ok (seqResultOf cfg st total_frames fps sample_rate)

/-- `BrightnessAnalyzer.analyze_gif`: raises `ValueError` on an empty frame
list, otherwise scans under the stride and finishes like the video path,
with the fixed default GIF rate of 10 fps. -/
def analyze_gif (cfg : Config) (s : Store) (frames : List Frame)
    (sample_rate : Nat) : Except String (Store × SeqResult) := do
  let total_frames := frames.length
  if total_frames = 0 then
    .error "No frames provided for GIF analysis"
  else
    let st ← gifLoop sample_rate 0 frames
      { global_max_brightness := 0, global_brightest_point := (0, 0),
        global_brightest_frame := none, global_frame_number := 0, store := s }
    .ok (seqResultOf cfg st total_frames 10 sample_rate)

/-- A frame holds at least one pixel (so its brightness map is a non-empty
reduction domain for `np.max`). -/
def Frame.nonempty : Frame → Prop
  | .color rows => rows.flatten ≠ []
  | .gray rows => rows.flatten ≠ []

instance : DecidablePred Frame.nonempty := by
  intro f
  cases f <;> simp only [Frame.nonempty] <;> infer_instance

/-- The per-frame maximum brightness (`np.max` over the frame's brightness
map, defaulting to 0 on a zero-size frame). -/
def frameMax (f : Frame) : Rat := (npMax (calculate_brightness f)).getD 0

/- ======================================================================
   General helper lemmas
   ====================================================================== -/

theorem max?_spec (l : List Rat) (hl : l ≠ []) :
    ∃ v, l.max? = some v ∧ v ∈ l ∧ ∀ a ∈ l, a ≤ v := by
  cases hz : l.max? with
  | none => exact absurd (List.max?_eq_none_iff.mp hz) hl
  | some v =>
    have : Std.Antisymm (α := Rat) (· ≤ ·) := ⟨fun h h' => le_antisymm h h'⟩
    rw [List.max?_eq_some_iff] at hz
    · exact ⟨v, rfl, hz.1, hz.2⟩
    · exact le_refl
    · exact fun a b => max_choice a b
    · exact fun a b c => max_le_iff

theorem min?_spec (l : List Rat) (hl : l ≠ []) :
    ∃ v, l.min? = some v ∧ v ∈ l ∧ ∀ a ∈ l, v ≤ a := by
  cases hz : l.min? with
  | none => exact absurd (List.min?_eq_none_iff.mp hz) hl
  | some v =>
    have : Std.Antisymm (α := Rat) (· ≤ ·) := ⟨fun h h' => le_antisymm h h'⟩
    rw [List.min?_eq_some_iff] at hz
    · exact ⟨v, rfl, hz.1, hz.2⟩
    · exact le_refl
    · exact fun a b => min_choice a b
    · exact fun a b c => le_min_iff

theorem getD_map_of_lt {α β : Type} (l : List α) (f : α → β) (i : Nat)
    (hi : i < l.length) (d : α) (d' : β) :
    (l.map f).getD i d' = f (l.getD i d) := by
  rw [List.getD_eq_getElem _ _ (by simpa using hi), List.getD_eq_getElem _ _ hi,
    List.getElem_map]

theorem getD_mem {α : Type} (l : List α) (i : Nat) (hi : i < l.length) (d : α) :
    l.getD i d ∈ l := by
  rw [List.getD_eq_getElem _ _ hi]
  exact List.getElem_mem _

theorem readStore_append_lt (s : Store) (f : Frame) (i : Nat) (hi : i < s.length) :
    readStore (s ++ [f]) i = readStore s i := by
  unfold readStore
  rw [List.getD_eq_getElem _ _ (by simp; omega), List.getD_eq_getElem _ _ hi,
    List.getElem_append_left hi]

theorem readStore_append_self (s : Store) (f : Frame) :
    readStore (s ++ [f]) s.length = f := by
  simp [readStore]

theorem readStore_set_ne (s : Store) (i j : Nat) (f : Frame) (h : j ≠ i) :
    readStore (s.set i f) j = readStore s j := by
  unfold readStore
  simp [List.getD_eq_getElem?_getD, List.getElem?_set_ne (by omega : i ≠ j)]

/- ======================================================================
   C2 — zero-frame sequences
   ====================================================================== -/

/-- C2, counterexample: the claim says a zero-frame source fails with an
explicit "no frames" error on the video path too, but
`analyze_video` on a source with 0 frames returns a normal result record
with zeroed statistics and a null winning frame instead of raising. -/
theorem C2_counterexample :
    analyze_video defaultConfig [] [] 5 30 =
      .ok ([], { brightest_point := (0, 0), max_brightness := 0,
                 average_brightness := 0,
                 brightness_histogram := List.replicate 256 0,
                 brightest_frame := none, brightest_frame_marked := none,
                 is_video := true, frame_number := 0, total_frames := 0,
                 fps := 30, sample_rate := 5 }) := rfl

/-- C2, amended: only the animation path (`analyze_gif`) fails immediately
with the explicit "no frames" error on a zero-frame sequence; the video
path (`analyze_video` on a source with 0 frames) instead returns a result
record with zeroed statistics and a null winning frame. -/
theorem C2_amended_zero_frames :
    (∀ (cfg : Config) (s : Store) (n : Nat),
        analyze_gif cfg s [] n = .error "No frames provided for GIF analysis") ∧
    (∀ (cfg : Config) (s : Store) (n : Nat) (fps : Rat),
        analyze_video cfg s [] n fps =
          .ok (s, { brightest_point := (0, 0), max_brightness := 0,
                    average_brightness := 0,
                    brightness_histogram := List.replicate 256 0,
                    brightest_frame := none, brightest_frame_marked := none,
                    is_video := true, frame_number := 0, total_frames := 0,
                    fps := fps, sample_rate := n })) :=
  ⟨fun _ _ _ => rfl, fun _ _ _ _ => rfl⟩

/- ======================================================================
   C5 — find_brightest_point on an empty map
   ====================================================================== -/

/-- C5, counterexample: the claim says an empty or zero-sized map yields
`(0, 0)` without failing, but `find_brightest_point` calls `np.max` first,
which raises its zero-size-reduction `ValueError` both on a 0-row map and
on a map of empty rows. -/
theorem C5_counterexample :
    find_brightest_point [] =
      .error "zero-size array to reduction operation maximum which has no identity" ∧
    find_brightest_point [[], []] =
      .error "zero-size array to reduction operation maximum which has no identity" :=
  ⟨rfl, rfl⟩

/-- C5, amended: on an empty or zero-sized brightness map
`find_brightest_point` fails with the `np.max` zero-size-reduction error;
the `(0, 0)` fallback branch is only reached when the equality scan
returns no coordinates, which cannot happen for a non-empty real-valued
map. -/
theorem C5_amended_empty_map_errors (m : BMap) (h : m.flatten = []) :
    find_brightest_point m =
      .error "zero-size array to reduction operation maximum which has no identity" := by
  unfold find_brightest_point npMax
  rw [h]
  rfl

/-- C5 witness: the amended statement applied to the 0-row map. -/
theorem C5_amended_witness :
    find_brightest_point ([] : BMap) =
      .error "zero-size array to reduction operation maximum which has no identity" :=
  C5_amended_empty_map_errors [] rfl

/- ======================================================================
   C3 — the Brightness Transform formula
   ====================================================================== -/

theorem dims_map_map {α β : Type} (rows : List (List α)) (g : α → β) (h w : Nat)
    (hd : Dims rows h w) : Dims (rows.map (List.map g)) h w := by
  refine ⟨by simpa using hd.1, ?_⟩
  intro row hr
  rcases List.mem_map.mp hr with ⟨r, hrm, rfl⟩
  simpa using hd.2 r hrm

theorem at_map_map {α β : Type} (rows : List (List α)) (g : α → β) (h w y x : Nat)
    (hd : Dims rows h w) (hy : y < h) (hx : x < w) (d : α) (d' : β) :
    ((rows.map (List.map g)).getD y []).getD x d' = g ((rows.getD y []).getD x d) := by
  have hy' : y < rows.length := hd.1 ▸ hy
  rw [getD_map_of_lt rows (List.map g) y hy' []]
  have hx' : x < (rows.getD y []).length := by
    rw [hd.2 _ (getD_mem rows y hy' [])]; exact hx
  exact getD_map_of_lt _ g x hx' d d'

/-- C3: `calculate_brightness` maps a 3-channel frame to a same-dimension
brightness map whose cell at every pixel is the plain unweighted average
`(channel0 + channel1 + channel2) / 3` of the three samples, and maps a
single-channel frame to its values cast to float, unchanged. -/
theorem C3_brightness_transform :
    (∀ (rows : List (List ColorPix)) (h w : Nat), Dims rows h w →
      Dims (calculate_brightness (Frame.color rows)) h w ∧
      ∀ y x, y < h → x < w →
        bmapAt (calculate_brightness (Frame.color rows)) x y =
          (((colorAt rows x y).1 : Rat) + ((colorAt rows x y).2.1 : Rat) +
           ((colorAt rows x y).2.2 : Rat)) / 3) ∧
    (∀ (rows : List (List Nat)) (h w : Nat), Dims rows h w →
      Dims (calculate_brightness (Frame.gray rows)) h w ∧
      ∀ y x, y < h → x < w →
        bmapAt (calculate_brightness (Frame.gray rows)) x y = (grayAt rows x y : Rat)) := by
  constructor
  · intro rows h w hd
    have hcb : calculate_brightness (Frame.color rows) =
        rows.map (List.map (fun (p : ColorPix) => (((p.1 : Rat) + p.2.1 + p.2.2) / 3))) := rfl
    rw [hcb]
    refine ⟨dims_map_map rows _ h w hd, ?_⟩
    intro y x hy hx
    exact at_map_map rows (fun (p : ColorPix) => (((p.1 : Rat) + p.2.1 + p.2.2) / 3)) h w y x hd hy hx (0, 0, 0) 0
  · intro rows h w hd
    have hcb : calculate_brightness (Frame.gray rows) =
        rows.map (List.map (fun (v : Nat) => (v : Rat))) := rfl
    rw [hcb]
    refine ⟨dims_map_map rows _ h w hd, ?_⟩
    intro y x hy hx
    exact at_map_map rows (fun (v : Nat) => (v : Rat)) h w y x hd hy hx 0 0

/-- C3 witness: the color part of the transform theorem applied to a
concrete 1×1 frame, evaluating `(1 + 2 + 3) / 3 = 2`. -/
theorem C3_witness :
    Dims (calculate_brightness (Frame.color [[(1, 2, 3)]])) 1 1 ∧
    bmapAt (calculate_brightness (Frame.color [[(1, 2, 3)]])) 0 0 = 2 := by
  obtain ⟨hdims, hval⟩ :=
    C3_brightness_transform.1 [[(1, 2, 3)]] 1 1 (by refine ⟨rfl, ?_⟩; intro row hr; simp at hr; simp [hr])
  refine ⟨hdims, ?_⟩
  rw [hval 0 0 (by norm_num) (by norm_num)]
  norm_num [colorAt]

/- ======================================================================
   C4 — the Extremum Locator and its row-major tie-break
   ====================================================================== -/

theorem rowHits_nil_char (v : Rat) (i0 : Nat) :
    ∀ (row : List Rat) (j : Nat),
      (List.enumFrom j row).filterMap
        (fun xc => if xc.2 = v then some (i0, xc.1) else none) = [] →
      ∀ x, x < row.length → row.getD x 0 ≠ v := by
  intro row
  induction row with
  | nil => intro j _ x hx; simp at hx
  | cons a l ih =>
    intro j hemp x hx
    rw [show List.enumFrom j (a :: l) = (j, a) :: List.enumFrom (j+1) l from rfl,
      List.filterMap_cons] at hemp
    by_cases ha : a = v
    · simp [ha] at hemp
    · simp only [ha, if_false] at hemp
      cases x with
      | zero => simpa using ha
      | succ x' =>
        rw [List.getD_cons_succ]
        exact ih (j+1) hemp x' (by simpa using hx)

theorem rowHits_cons_char (v : Rat) (i0 : Nat) :
    ∀ (row : List Rat) (j : Nat) (p : Nat × Nat) (rest : List (Nat × Nat)),
      (List.enumFrom j row).filterMap
        (fun xc => if xc.2 = v then some (i0, xc.1) else none) = p :: rest →
      p.1 = i0 ∧ j ≤ p.2 ∧ p.2 - j < row.length ∧ row.getD (p.2 - j) 0 = v ∧
      ∀ x, x < p.2 - j → row.getD x 0 ≠ v := by
  intro row
  induction row with
  | nil => intro j p rest hcons; simp at hcons
  | cons a l ih =>
    intro j p rest hcons
    rw [show List.enumFrom j (a :: l) = (j, a) :: List.enumFrom (j+1) l from rfl,
      List.filterMap_cons] at hcons
    by_cases ha : a = v
    · simp only [ha, if_pos rfl] at hcons
      obtain ⟨hp, -⟩ := List.cons_eq_cons.mp hcons
      subst hp
      refine ⟨rfl, le_refl j, ?_, ?_, ?_⟩
      · simp
      · simpa using ha
      · intro x hxlt; omega
    · simp only [ha, if_false] at hcons
      obtain ⟨h1, h2, h3, h4, h5⟩ := ih (j+1) p rest hcons
      refine ⟨h1, by omega, by simp; omega, ?_, ?_⟩
      · have : p.2 - j = (p.2 - (j+1)) + 1 := by omega
        rw [this, List.getD_cons_succ]
        exact h4
      · intro x hxlt
        cases x with
        | zero => simpa using ha
        | succ x' =>
          rw [List.getD_cons_succ]
          exact h5 x' (by omega)

theorem whereFrom_nil_char (v : Rat) :
    ∀ (m : BMap) (k : Nat),
      ((List.enumFrom k m).map (fun yrow =>
          yrow.2.enum.filterMap (fun xc =>
            if xc.2 = v then some (yrow.1, xc.1) else none))).flatten = [] →
      ∀ y x, y < m.length → x < (m.getD y []).length → (m.getD y []).getD x 0 ≠ v := by
  intro m
  induction m with
  | nil => intro k _ y x hy _; simp at hy
  | cons row m' ih =>
    intro k hemp y x hy hx
    rw [show List.enumFrom k (row :: m') = (k, row) :: List.enumFrom (k+1) m' from rfl,
      List.map_cons] at hemp
    rw [show ∀ (a : List (Nat × Nat)) (l : List (List (Nat × Nat))),
          (a :: l).flatten = a ++ l.flatten from fun _ _ => rfl] at hemp
    rw [List.append_eq_nil] at hemp
    cases y with
    | zero =>
      exact rowHits_nil_char v k row 0 hemp.1 x (by simpa using hx)
    | succ y' =>
      rw [List.getD_cons_succ] at hx ⊢
      exact ih (k+1) hemp.2 y' x (by simpa using hy) hx

theorem whereFrom_cons_char (v : Rat) :
    ∀ (m : BMap) (k : Nat) (p : Nat × Nat) (rest : List (Nat × Nat)),
      ((List.enumFrom k m).map (fun yrow =>
          yrow.2.enum.filterMap (fun xc =>
            if xc.2 = v then some (yrow.1, xc.1) else none))).flatten = p :: rest →
      k ≤ p.1 ∧ p.1 - k < m.length ∧ p.2 < (m.getD (p.1 - k) []).length ∧
      (m.getD (p.1 - k) []).getD p.2 0 = v ∧
      (∀ y x, y < p.1 - k → x < (m.getD y []).length → (m.getD y []).getD x 0 ≠ v) ∧
      (∀ x, x < p.2 → (m.getD (p.1 - k) []).getD x 0 ≠ v) := by
  intro m
  induction m with
  | nil => intro k p rest hcons; simp at hcons
  | cons row m' ih =>
    intro k p rest hcons
    rw [show List.enumFrom k (row :: m') = (k, row) :: List.enumFrom (k+1) m' from rfl,
      List.map_cons] at hcons
    rw [show ∀ (a : List (Nat × Nat)) (l : List (List (Nat × Nat))),
          (a :: l).flatten = a ++ l.flatten from fun _ _ => rfl] at hcons
    cases hrh : row.enum.filterMap (fun xc => if xc.2 = v then some (k, xc.1) else none) with
    | nil =>
      rw [hrh, List.nil_append] at hcons
      obtain ⟨h1, h2, h3, h4, h5, h6⟩ := ih (k+1) p rest hcons
      have hner : ∀ x, x < row.length → row.getD x 0 ≠ v :=
        rowHits_nil_char v k row 0 hrh
      have hks : k + 1 ≤ p.1 := h1
      have hsub : p.1 - k = (p.1 - (k+1)) + 1 := by omega
      refine ⟨by omega, by rw [hsub]; simpa using h2, ?_, ?_, ?_, ?_⟩
      · rw [hsub, List.getD_cons_succ]; exact h3
      · rw [hsub, List.getD_cons_succ]; exact h4
      · intro y x hylt hx
        cases y with
        | zero => exact hner x (by simpa using hx)
        | succ y' =>
          rw [List.getD_cons_succ] at hx ⊢
          exact h5 y' x (by omega) hx
      · rw [hsub, List.getD_cons_succ]; exact h6
    | cons q r =>
      rw [hrh] at hcons
      rw [List.cons_append] at hcons
      obtain ⟨hpq, -⟩ := List.cons_eq_cons.mp hcons
      subst hpq
      obtain ⟨h1, h2, h3, h4, h5⟩ := rowHits_cons_char v k row 0 q r hrh
      have hk : q.1 = k := h1
      have hz : q.1 - k = 0 := by omega
      rw [hz]
      refine ⟨by omega, by simp, ?_, ?_, ?_, ?_⟩
      · simpa using h3
      · simpa using h4
      · intro y x hylt _; omega
      · intro x hxlt
        simpa using h5 x (by omega)

theorem cell_mem_flatten (m : BMap) (h w : Nat) (hd : Dims m h w) (x y : Nat)
    (hy : y < h) (hx : x < w) : bmapAt m x y ∈ m.flatten := by
  have hy' : y < m.length := hd.1 ▸ hy
  have hrow : m.getD y [] ∈ m := getD_mem m y hy' []
  have hx' : x < (m.getD y []).length := by rw [hd.2 _ hrow]; exact hx
  exact List.mem_flatten.mpr ⟨m.getD y [], hrow, getD_mem _ x hx' 0⟩

/-- C4: on a non-empty brightness map, `find_brightest_point` returns the
coordinate of a cell holding the maximum value, and among equal maxima it
is the row-major-first one — every cell in an earlier row, or earlier in
the same row, is strictly smaller; in particular on `[[5,5],[1,1]]` the
result is `(0, 0)`. -/
theorem C4_extremum_row_major_first :
    (∀ (m : BMap) (h w : Nat), Dims m h w → 0 < h → 0 < w →
      ∃ x y, find_brightest_point m = .ok (x, y) ∧ x < w ∧ y < h ∧
        (∀ y' x', y' < h → x' < w → bmapAt m x' y' ≤ bmapAt m x y) ∧
        (∀ y' x', y' < h → x' < w → (y' < y ∨ (y' = y ∧ x' < x)) →
          bmapAt m x' y' < bmapAt m x y)) ∧
    find_brightest_point [[5, 5], [1, 1]] = .ok (0, 0) := by
  constructor
  · intro m h w hd hh hw
    have hne : m.flatten ≠ [] :=
      List.ne_nil_of_mem (cell_mem_flatten m h w hd 0 0 hh hw)
    obtain ⟨mv, hmv, hmem, hub⟩ := max?_spec m.flatten hne
    have hmax : npMax m = some mv := hmv
    cases hwh : npWhereEq m mv with
    | nil =>
      exfalso
      obtain ⟨row, hrm, hvr⟩ := List.mem_flatten.mp hmem
      obtain ⟨y, hy, hyv⟩ := List.mem_iff_getElem.mp hrm
      obtain ⟨x, hx, hxv⟩ := List.mem_iff_getElem.mp hvr
      have hchar := whereFrom_nil_char mv m 0 hwh y x
      rw [List.getD_eq_getElem _ _ hy, hyv] at hchar
      exact hchar hy hx (by rw [List.getD_eq_getElem _ _ hx]; exact hxv)
    | cons p rest =>
      obtain ⟨py, px⟩ := p
      obtain ⟨-, hylt, hxlt, hcell, hrows, hcols⟩ :=
        whereFrom_cons_char mv m 0 (py, px) rest hwh
      rw [Nat.sub_zero] at hylt hxlt hcell hrows hcols
      have hweq : (m.getD py []).length = w :=
        hd.2 _ (getD_mem m py hylt [])
      refine ⟨px, py, ?_, by rw [hweq] at hxlt; exact hxlt, hd.1 ▸ hylt, ?_, ?_⟩
      · simp only [find_brightest_point, hmax, hwh]
      · intro y' x' hy' hx'
        have hcv : bmapAt m px py = mv := hcell
        rw [hcv]
        exact hub _ (cell_mem_flatten m h w hd x' y' hy' hx')
      · intro y' x' hy' hx' hord
        have hcv : bmapAt m px py = mv := hcell
        have hle : bmapAt m x' y' ≤ mv :=
          hub _ (cell_mem_flatten m h w hd x' y' hy' hx')
        have hne' : bmapAt m x' y' ≠ mv := by
          rcases hord with hlt | ⟨heq, hxlt'⟩
          · exact hrows y' x' hlt (by rw [hd.2 _ (getD_mem m y' (hd.1 ▸ hy') [])]; exact hx')
          · subst heq; exact hcols x' hxlt'
        rw [hcv]
        exact lt_of_le_of_ne hle hne'
  · rfl

/-- C4 witness: the locator theorem applied to a concrete 2×2 map. -/
theorem C4_witness :
    ∃ x y, find_brightest_point [[1, 2], [3, 4]] = .ok (x, y) ∧ x < 2 ∧ y < 2 ∧
      (∀ y' x', y' < 2 → x' < 2 →
        bmapAt [[1, 2], [3, 4]] x' y' ≤ bmapAt [[1, 2], [3, 4]] x y) ∧
      (∀ y' x', y' < 2 → x' < 2 → (y' < y ∨ (y' = y ∧ x' < x)) →
        bmapAt [[1, 2], [3, 4]] x' y' < bmapAt [[1, 2], [3, 4]] x y) :=
  C4_extremum_row_major_first.1 [[1, 2], [3, 4]] 2 2
    (by refine ⟨rfl, ?_⟩; intro row hr; simp at hr; rcases hr with h | h <;> simp [h])
    (by norm_num) (by norm_num)

/- ======================================================================
   C6 — the clipped square window of calculate_average_brightness
   ====================================================================== -/

theorem sum_map_pySlice {α : Type} (F : α → Rat) (d : α) :
    ∀ (l : List α) (a b : Nat),
      ((pySlice l a b).map F).sum =
        ((List.range l.length).map
          (fun j => if a ≤ j ∧ j < b then F (l.getD j d) else 0)).sum := by
  intro l
  induction l with
  | nil => intro a b; simp [pySlice]
  | cons v l ih =>
    intro a b
    cases b with
    | zero =>
      have hnil : pySlice (v :: l) a 0 = [] := by simp [pySlice]
      rw [hnil]
      simp
    | succ b' =>
      cases a with
      | zero =>
        rw [show pySlice (v :: l) 0 (b' + 1) = v :: pySlice l 0 b' from rfl]
        rw [List.length_cons, List.range_succ_eq_map]
        simp only [List.map_cons, List.sum_cons, List.map_map]
        have hhead : (if (0 : Nat) ≤ 0 ∧ (0 : Nat) < b' + 1 then F ((v :: l).getD 0 d) else 0)
            = F v := by
          rw [if_pos (by omega)]; rfl
        rw [hhead, ih 0 b']
        congr 1
        apply congrArg
        apply List.map_congr_left
        intro j hj
        simp only [Function.comp, List.getD_cons_succ]
        rw [if_congr (by omega : ((0:Nat) ≤ j + 1 ∧ j + 1 < b' + 1) ↔ ((0:Nat) ≤ j ∧ j < b'))
          rfl rfl]
      | succ a' =>
        rw [show pySlice (v :: l) (a' + 1) (b' + 1) = pySlice l a' b' from rfl]
        rw [List.length_cons, List.range_succ_eq_map]
        simp only [List.map_cons, List.sum_cons, List.map_map]
        have hhead : (if a' + 1 ≤ 0 ∧ (0 : Nat) < b' + 1 then F ((v :: l).getD 0 d) else 0)
            = 0 := by
          rw [if_neg (by omega)]
        rw [hhead, zero_add, ih a' b']
        apply congrArg
        apply List.map_congr_left
        intro j hj
        simp only [Function.comp, List.getD_cons_succ]
        rw [if_congr (by omega : (a' + 1 ≤ j + 1 ∧ j + 1 < b' + 1) ↔ (a' ≤ j ∧ j < b'))
          rfl rfl]

theorem sum_map_zero_fun {α : Type} (l : List α) :
    (l.map (fun _ => (0 : Rat))).sum = 0 := by
  simp

theorem double_slice_sum (m : BMap) (h w : Nat) (hd : Dims m h w) (F : Rat → Rat)
    (xlo xhi ylo yhi : Nat) :
    ((pySlice m ylo yhi).map (fun row => ((pySlice row xlo xhi).map F).sum)).sum =
      ((List.range h).map (fun (i : Nat) => ((List.range w).map (fun (j : Nat) =>
        if (ylo ≤ i ∧ i < yhi) ∧ (xlo ≤ j ∧ j < xhi)
        then F (bmapAt m j i) else 0)).sum)).sum := by
  rw [sum_map_pySlice (fun row => ((pySlice row xlo xhi).map F).sum) [] m ylo yhi, hd.1]
  apply congrArg
  apply List.map_congr_left
  intro i hi
  have hi' : i < h := by simpa using hi
  have hrow : m.getD i [] ∈ m := getD_mem m i (hd.1 ▸ hi') []
  have hlen : (m.getD i []).length = w := hd.2 _ hrow
  by_cases hyc : ylo ≤ i ∧ i < yhi
  · rw [if_pos hyc, sum_map_pySlice F 0 (m.getD i []) xlo xhi, hlen]
    apply congrArg
    apply List.map_congr_left
    intro j hj
    by_cases hxc : xlo ≤ j ∧ j < xhi
    · rw [if_pos hxc, if_pos ⟨hyc, hxc⟩]; rfl
    · rw [if_neg hxc, if_neg (by tauto)]
  · rw [if_neg hyc]
    have : ∀ j ∈ List.range w,
        (if (ylo ≤ i ∧ i < yhi) ∧ (xlo ≤ j ∧ j < xhi) then F (bmapAt m j i) else 0)
          = (0 : Rat) := by
      intro j _
      rw [if_neg (by tauto)]
    rw [List.map_congr_left this, sum_map_zero_fun]

theorem headD_length (m : BMap) (h w : Nat) (hd : Dims m h w) (hh : 0 < h) :
    (m.headD []).length = w := by
  cases m with
  | nil =>
    exfalso
    have h0 : (0 : Nat) = h := by simpa using hd.1
    omega
  | cons row m' => exact hd.2 row (by simp)

theorem pySlice_singleton {α : Type} (d : α) :
    ∀ (l : List α) (n : Nat), n < l.length → pySlice l n (n + 1) = [l.getD n d] := by
  intro l
  induction l with
  | nil => intro n hn; simp at hn
  | cons x xs ih =>
    intro n hn
    cases n with
    | zero => simp [pySlice]
    | succ m =>
      rw [List.getD_cons_succ]
      rw [show pySlice (x :: xs) (m + 1) (m + 1 + 1) = pySlice xs m (m + 1) from rfl]
      exact ih m (by simpa using hn)

theorem cast_length_eq_sum_ones {α : Type} (l : List α) :
    ((l.length : Nat) : Rat) = (l.map (fun _ => (1 : Rat))).sum := by
  induction l with
  | nil => simp
  | cons x xs ih =>
    rw [List.map_cons, List.sum_cons, ← ih, List.length_cons]
    push_cast
    ring

/-- C6: for a point inside the map and any radius, the local average is the
arithmetic mean (sum over count) of exactly the cells of the axis-aligned
square `[x-r, x+r] × [y-r, y+r]` intersected with the map's bounds, and
with radius 0 it is the map value at the point itself. -/
theorem C6_local_average (m : BMap) (h w : Nat) (hd : Dims m h w)
    (x y r : Nat) (hx : x < w) (hy : y < h) :
    calculate_average_brightness m (x, y) r =
      (((List.range h).map (fun (i : Nat) => ((List.range w).map (fun (j : Nat) =>
          if ((x : Int) - r ≤ j ∧ (j : Int) ≤ (x : Int) + r) ∧
             ((y : Int) - r ≤ i ∧ (i : Int) ≤ (y : Int) + r)
          then bmapAt m j i else 0)).sum)).sum) /
      (((List.range h).map (fun (i : Nat) => ((List.range w).map (fun (j : Nat) =>
          if ((x : Int) - r ≤ j ∧ (j : Int) ≤ (x : Int) + r) ∧
             ((y : Int) - r ≤ i ∧ (i : Int) ≤ (y : Int) + r)
          then (1 : Rat) else 0)).sum)).sum) ∧
    calculate_average_brightness m (x, y) 0 = bmapAt m x y := by
  have hwidth : (m.headD []).length = w := headD_length m h w hd (by omega)
  constructor
  · show npMean ((pySlice m (y - r) (min m.length (y + r + 1))).map
        (fun row => pySlice row (x - r) (min (m.headD []).length (x + r + 1)))) = _
    rw [hwidth]
    unfold npMean
    have hnum : (((pySlice m (y - r) (min m.length (y + r + 1))).map
          (fun row => pySlice row (x - r) (min w (x + r + 1)))).map List.sum).sum =
        ((List.range h).map (fun (i : Nat) => ((List.range w).map (fun (j : Nat) =>
          if ((x : Int) - r ≤ j ∧ (j : Int) ≤ (x : Int) + r) ∧
             ((y : Int) - r ≤ i ∧ (i : Int) ≤ (y : Int) + r)
          then bmapAt m j i else 0)).sum)).sum := by
      rw [List.map_map]
      have hmm : (List.sum ∘ fun row => pySlice row (x - r) (min w (x + r + 1))) =
          fun (row : List Rat) => ((pySlice row (x - r) (min w (x + r + 1))).map (id : Rat → Rat)).sum := by
        funext row
        simp
      rw [hmm, double_slice_sum m h w hd (id : Rat → Rat) (x - r) (min w (x + r + 1)) (y - r)
        (min m.length (y + r + 1)), hd.1]
      apply congrArg
      apply List.map_congr_left
      intro i hi
      apply congrArg
      apply List.map_congr_left
      intro j hj
      have hi' : i < h := by simpa using hi
      have hj' : j < w := by simpa using hj
      simp only [id_eq]
      have hiff : ((y - r ≤ i ∧ i < min h (y + r + 1)) ∧ (x - r ≤ j ∧ j < min w (x + r + 1))) ↔
          (((x : Int) - r ≤ j ∧ (j : Int) ≤ (x : Int) + r) ∧
           ((y : Int) - r ≤ i ∧ (i : Int) ≤ (y : Int) + r)) := by omega
      rw [if_congr hiff rfl rfl]
    have hden : ((((pySlice m (y - r) (min m.length (y + r + 1))).map
          (fun row => pySlice row (x - r) (min w (x + r + 1)))).map List.length).sum : Rat) =
        ((List.range h).map (fun (i : Nat) => ((List.range w).map (fun (j : Nat) =>
          if ((x : Int) - r ≤ j ∧ (j : Int) ≤ (x : Int) + r) ∧
             ((y : Int) - r ≤ i ∧ (i : Int) ≤ (y : Int) + r)
          then (1 : Rat) else 0)).sum)).sum := by
      rw [Nat.cast_list_sum, List.map_map, List.map_map]
      have hmm : (((Nat.cast : Nat → Rat) ∘ List.length) ∘
            fun row => pySlice row (x - r) (min w (x + r + 1))) =
          fun (row : List Rat) => ((pySlice row (x - r) (min w (x + r + 1))).map (fun (_ : Rat) => (1 : Rat))).sum := by
        funext row
        exact cast_length_eq_sum_ones _
      rw [hmm, double_slice_sum m h w hd (fun (_ : Rat) => (1 : Rat)) (x - r) (min w (x + r + 1))
        (y - r) (min m.length (y + r + 1)), hd.1]
      apply congrArg
      apply List.map_congr_left
      intro i hi
      apply congrArg
      apply List.map_congr_left
      intro j hj
      have hi' : i < h := by simpa using hi
      have hj' : j < w := by simpa using hj
      have hiff : ((y - r ≤ i ∧ i < min h (y + r + 1)) ∧ (x - r ≤ j ∧ j < min w (x + r + 1))) ↔
          (((x : Int) - r ≤ j ∧ (j : Int) ≤ (x : Int) + r) ∧
           ((y : Int) - r ≤ i ∧ (i : Int) ≤ (y : Int) + r)) := by omega
      rw [if_congr hiff rfl rfl]
    rw [hnum, hden]
  · show npMean ((pySlice m (y - 0) (min m.length (y + 0 + 1))).map
        (fun row => pySlice row (x - 0) (min (m.headD []).length (x + 0 + 1)))) = _
    rw [hwidth]
    have hyb : y < m.length := hd.1 ▸ hy
    have hminy : min m.length (y + 0 + 1) = y + 1 := by omega
    have hminx : min w (x + 0 + 1) = x + 1 := by omega
    rw [hminy, hminx, Nat.sub_zero, Nat.sub_zero, pySlice_singleton [] m y hyb]
    have hxb : x < (m.getD y []).length := by
      rw [hd.2 _ (getD_mem m y hyb [])]; exact hx
    rw [List.map_cons, List.map_nil, pySlice_singleton 0 (m.getD y []) x hxb]
    simp [npMean, bmapAt]

/-- C6 witness: the window theorem applied to a concrete 2×2 map at the
point `(1, 1)` with radius 0. -/
theorem C6_witness :
    calculate_average_brightness [[1, 2], [3, 4]] (1, 1) 0 = bmapAt [[1, 2], [3, 4]] 1 1 :=
  (C6_local_average [[1, 2], [3, 4]] 2 2
    (by refine ⟨rfl, ?_⟩; intro row hr; simp at hr; rcases hr with h | h <;> simp [h])
    1 1 0 (by norm_num) (by norm_num)).2

/- ======================================================================
   C7 — the histogram builder
   ====================================================================== -/

theorem saturateCastU8_lt (n : Int) : saturateCastU8 n < 256 := by
  unfold saturateCastU8
  omega

theorem mem_flatten_map_map {α β : Type} (rows : List (List α)) (g : α → β) (b : β) :
    b ∈ (rows.map (List.map g)).flatten ↔ ∃ a ∈ rows.flatten, g a = b := by
  rw [← List.map_flatten]
  exact List.mem_map

theorem length_flatten_of_dims {α : Type} (rows : List (List α)) (h w : Nat)
    (hd : Dims rows h w) : rows.flatten.length = h * w := by
  rw [List.length_flatten]
  have hcg : rows.map List.length = rows.map (fun _ => w) :=
    List.map_congr_left (fun row hr => hd.2 row hr)
  rw [hcg, List.map_const', List.sum_replicate, hd.1]
  simp [Nat.mul_comm]

theorem sum_range_eq_indicator (x : Nat) :
    ∀ n, ((List.range n).map (fun b => if b = x then (1 : Nat) else 0)).sum
      = if x < n then 1 else 0 := by
  intro n
  induction n with
  | zero => simp
  | succ k ih =>
    rw [List.range_succ, List.map_append, List.sum_append, ih]
    have hsingle : (([k].map (fun b => if b = x then (1 : Nat) else 0))).sum
        = if k = x then 1 else 0 := by
      simp only [List.map_cons, List.map_nil, List.sum_cons, List.sum_nil, Nat.add_zero]
    rw [hsingle]
    by_cases hxk : x = k
    · subst hxk
      rw [if_neg (by omega), if_pos rfl, if_pos (by omega)]
    · by_cases hlt : x < k
      · rw [if_pos hlt, if_neg (fun hh => hxk hh.symm), if_pos (by omega)]
      · rw [if_neg hlt, if_neg (fun hh => hxk hh.symm), if_neg (by omega)]

theorem sum_range_count (l : List Nat) (hl : ∀ a ∈ l, a < 256) :
    ((List.range 256).map (fun b => l.count b)).sum = l.length := by
  induction l with
  | nil =>
    have h0 : ((List.range 256).map (fun b => ([] : List Nat).count b)) =
        (List.range 256).map (fun _ => (0 : Nat)) := by
      apply List.map_congr_left
      intro b _
      simp
    rw [h0, List.map_const', List.sum_replicate]
    simp
  | cons x xs ih =>
    have hx : x < 256 := hl x (by simp)
    have hxs : ∀ a ∈ xs, a < 256 := fun a ha => hl a (by simp [ha])
    have hcc : ((List.range 256).map (fun b => (x :: xs).count b)) =
        ((List.range 256).map (fun b => xs.count b + if b = x then 1 else 0)) := by
      apply List.map_congr_left
      intro b _
      rw [List.count_cons]
      simp only [beq_iff_eq]
      by_cases hbx : x = b
      · simp [hbx]
      · rw [if_neg hbx, if_neg (fun hh => hbx hh.symm)]
    rw [hcc, List.sum_map_add, ih hxs, sum_range_eq_indicator, if_pos hx]
    simp

theorem normalize_dims (m : BMap) (h w : Nat) (hd : Dims m h w) :
    Dims (normalizeMinMax m) h w := by
  unfold normalizeMinMax
  rcases hmx : npMax m with _ | smax <;> rcases hmn : m.flatten.min? with _ | smin <;>
    exact dims_map_map m _ h w hd

theorem normalize_lt_256 (m : BMap) : ∀ a ∈ (normalizeMinMax m).flatten, a < 256 := by
  intro a ha
  unfold normalizeMinMax at ha
  rcases hmx : npMax m with _ | smax <;> rcases hmn : m.flatten.min? with _ | smin <;>
    rw [hmx, hmn] at ha <;>
    obtain ⟨v, -, hv⟩ := (mem_flatten_map_map m _ a).mp ha <;>
    rw [← hv]
  · omega
  · omega
  · omega
  · exact saturateCastU8_lt _

theorem flatten_const_of_cells (m : BMap) (h w : Nat) (hd : Dims m h w)
    (hconst : ∀ y x, y < h → x < w → bmapAt m x y = bmapAt m 0 0) :
    ∀ a ∈ m.flatten, a = bmapAt m 0 0 := by
  intro a ha
  obtain ⟨row, hrm, hvr⟩ := List.mem_flatten.mp ha
  obtain ⟨y, hy, hyv⟩ := List.mem_iff_getElem.mp hrm
  obtain ⟨x, hx, hxv⟩ := List.mem_iff_getElem.mp hvr
  have hyh : y < h := hd.1 ▸ hy
  have hxw : x < w := by
    have hrl := hd.2 row hrm
    omega
  have hcell : bmapAt m x y = a := by
    unfold bmapAt
    rw [List.getD_eq_getElem _ _ hy, hyv, List.getD_eq_getElem _ _ hx, hxv]
  rw [← hcell]
  exact hconst y x hyh hxw

theorem hist_getD (m : BMap) (b : Nat) (hb : b < 256) :
    (calculate_histogram m).getD b 0 = ((normalizeMinMax m).flatten).count b := by
  unfold calculate_histogram
  rw [getD_map_of_lt (List.range 256) _ b (by simpa using hb) 0 0]
  rw [List.getD_eq_getElem _ _ (by simpa using hb)]
  simp

attribute [local semireducible] Rat.add Rat.sub Rat.mul Rat.inv in
theorem saturate_cvRound_zero : saturateCastU8 (cvRound 0) = 0 := by decide

/-- C7: the histogram is a 256-entry sequence of counts over the min-max
normalized 8-bit quantization of the map, its counts sum to the pixel
count `h * w`, and on a constant map the whole mass lands in one bin
(bin 0) instead of failing on the degenerate normalization. -/
theorem C7_histogram (m : BMap) (h w : Nat) (hd : Dims m h w)
    (hh : 0 < h) (hw : 0 < w) :
    (calculate_histogram m).length = 256 ∧
    (calculate_histogram m).sum = h * w ∧
    ((∀ y x, y < h → x < w → bmapAt m x y = bmapAt m 0 0) →
      (calculate_histogram m).getD 0 0 = h * w ∧
      ∀ b, b < 256 → b ≠ 0 → (calculate_histogram m).getD b 0 = 0) := by
  have hlen : (normalizeMinMax m).flatten.length = h * w :=
    length_flatten_of_dims _ h w (normalize_dims m h w hd)
  refine ⟨by simp [calculate_histogram], ?_, ?_⟩
  · show ((List.range 256).map (fun b => ((normalizeMinMax m).flatten).count b)).sum = h * w
    rw [sum_range_count _ (normalize_lt_256 m), hlen]
  · intro hconst
    have hflat : ∀ a ∈ m.flatten, a = bmapAt m 0 0 :=
      flatten_const_of_cells m h w hd hconst
    have hfne : m.flatten ≠ [] :=
      List.ne_nil_of_mem (cell_mem_flatten m h w hd 0 0 hh hw)
    obtain ⟨mx, hmx, hmxm, -⟩ := max?_spec m.flatten hfne
    obtain ⟨mn, hmn, hmnm, -⟩ := min?_spec m.flatten hfne
    have hmxc : mx = bmapAt m 0 0 := hflat mx hmxm
    have hmnc : mn = bmapAt m 0 0 := hflat mn hmnm
    have hnorm0 : ∀ a ∈ (normalizeMinMax m).flatten, a = 0 := by
      intro a ha
      unfold normalizeMinMax at ha
      rw [show npMax m = some mx from hmx, hmn] at ha
      obtain ⟨v, hvm, hv⟩ := (mem_flatten_map_map m _ a).mp ha
      have hvc : v = bmapAt m 0 0 := hflat v hvm
      rw [← hv, hvc, hmxc, hmnc]
      rw [if_neg (by norm_num [dblEpsilon])]
      have hz : bmapAt m 0 0 * 0 + (0 - bmapAt m 0 0 * 0) = 0 := by ring
      rw [hz]
      exact saturate_cvRound_zero
    constructor
    · rw [hist_getD m 0 (by norm_num)]
      rw [List.count_eq_length.mpr (fun b hb => (hnorm0 b hb).symm), hlen]
    · intro b hb hb0
      rw [hist_getD m b hb]
      rw [List.count_eq_zero.mpr]
      intro hbmem
      exact hb0 (hnorm0 b hbmem)

/-- C7 witness: the histogram theorem applied to a concrete constant 1×2
map. -/
theorem C7_witness :
    (calculate_histogram [[7, 7]]).length = 256 ∧
    (calculate_histogram [[7, 7]]).sum = 1 * 2 ∧
    ((∀ y x, y < 1 → x < 2 → bmapAt [[7, 7]] x y = bmapAt [[7, 7]] 0 0) →
      (calculate_histogram [[7, 7]]).getD 0 0 = 1 * 2 ∧
      ∀ b, b < 256 → b ≠ 0 → (calculate_histogram [[7, 7]]).getD b 0 = 0) :=
  C7_histogram [[7, 7]] 1 2
    (by refine ⟨rfl, ?_⟩; intro row hr; simp at hr; simp [hr])
    (by norm_num) (by norm_num)

/- ======================================================================
   C8 — the Contrast Enhancer formula and its factor-1 identity
   ====================================================================== -/

theorem rat_floor_eq_intFloor (q : Rat) : q.floor = ⌊q⌋ :=
  (Rat.floor_def' q).trans Rat.floor_def.symm

theorem contrastVal_one (M : Rat) (n : Nat) (hn : (n : Rat) ≤ 255) :
    contrastVal M 1 (n : Rat) = n := by
  unfold contrastVal npClip toUint8
  have h1 : M + 1 * ((n : Rat) - M) = (n : Rat) := by ring
  rw [h1, max_eq_right (by positivity), min_eq_right hn, rat_floor_eq_intFloor]
  simp

/-- C8: `enhance_contrast` rewrites every sample `v` of the frame to
`mean + factor * (v - mean)` — `mean` the scalar average over all
pixel/channel samples — clamped to `[0, 255]` and truncated back to an
8-bit integer; and with factor 1 it is the identity on any valid 8-bit
frame. -/
theorem C8_contrast_enhancer :
    (∀ (rows : List (List ColorPix)) (factor : Rat) (h w : Nat), Dims rows h w →
      Dims (frameColorRows (enhance_contrast (Frame.color rows) factor)) h w ∧
      ∀ y x, y < h → x < w →
        colorAt (frameColorRows (enhance_contrast (Frame.color rows) factor)) x y =
          (toUint8 (npClip (frameMean (Frame.color rows) +
             factor * (((colorAt rows x y).1 : Rat) - frameMean (Frame.color rows))) 0 255),
           toUint8 (npClip (frameMean (Frame.color rows) +
             factor * (((colorAt rows x y).2.1 : Rat) - frameMean (Frame.color rows))) 0 255),
           toUint8 (npClip (frameMean (Frame.color rows) +
             factor * (((colorAt rows x y).2.2 : Rat) - frameMean (Frame.color rows))) 0 255))) ∧
    (∀ (rows : List (List Nat)) (factor : Rat) (h w : Nat), Dims rows h w →
      Dims (frameGrayRows (enhance_contrast (Frame.gray rows) factor)) h w ∧
      ∀ y x, y < h → x < w →
        grayAt (frameGrayRows (enhance_contrast (Frame.gray rows) factor)) x y =
          toUint8 (npClip (frameMean (Frame.gray rows) +
            factor * ((grayAt rows x y : Rat) - frameMean (Frame.gray rows))) 0 255)) ∧
    (∀ image : Frame, (∀ v ∈ frameValues image, v ≤ 255) →
      enhance_contrast image 1 = image) := by
  refine ⟨?_, ?_, ?_⟩
  · intro rows factor h w hd
    have hre : frameColorRows (enhance_contrast (Frame.color rows) factor) =
        rows.map (List.map (fun (p : ColorPix) =>
          (contrastVal (frameMean (Frame.color rows)) factor (p.1 : Rat),
           contrastVal (frameMean (Frame.color rows)) factor (p.2.1 : Rat),
           contrastVal (frameMean (Frame.color rows)) factor (p.2.2 : Rat)))) := rfl
    rw [hre]
    refine ⟨dims_map_map rows _ h w hd, ?_⟩
    intro y x hy hx
    rw [show colorAt (rows.map (List.map (fun (p : ColorPix) =>
          (contrastVal (frameMean (Frame.color rows)) factor (p.1 : Rat),
           contrastVal (frameMean (Frame.color rows)) factor (p.2.1 : Rat),
           contrastVal (frameMean (Frame.color rows)) factor (p.2.2 : Rat))))) x y =
        ((rows.map (List.map (fun (p : ColorPix) =>
          (contrastVal (frameMean (Frame.color rows)) factor (p.1 : Rat),
           contrastVal (frameMean (Frame.color rows)) factor (p.2.1 : Rat),
           contrastVal (frameMean (Frame.color rows)) factor (p.2.2 : Rat))))).getD y []).getD
          x (0, 0, 0) from rfl]
    rw [at_map_map rows _ h w y x hd hy hx (0, 0, 0) (0, 0, 0)]
    rfl
  · intro rows factor h w hd
    have hre : frameGrayRows (enhance_contrast (Frame.gray rows) factor) =
        rows.map (List.map (fun (v : Nat) =>
          contrastVal (frameMean (Frame.gray rows)) factor (v : Rat))) := rfl
    rw [hre]
    refine ⟨dims_map_map rows _ h w hd, ?_⟩
    intro y x hy hx
    rw [show grayAt (rows.map (List.map (fun (v : Nat) =>
          contrastVal (frameMean (Frame.gray rows)) factor (v : Rat)))) x y =
        ((rows.map (List.map (fun (v : Nat) =>
          contrastVal (frameMean (Frame.gray rows)) factor (v : Rat)))).getD y []).getD x 0
        from rfl]
    rw [at_map_map rows _ h w y x hd hy hx 0 0]
    rfl
  · intro image hv
    cases image with
    | color rows =>
      show Frame.color (rows.map (List.map (fun (p : ColorPix) =>
          (contrastVal (frameMean (Frame.color rows)) 1 (p.1 : Rat),
           contrastVal (frameMean (Frame.color rows)) 1 (p.2.1 : Rat),
           contrastVal (frameMean (Frame.color rows)) 1 (p.2.2 : Rat))))) = Frame.color rows
      have hmap : rows.map (List.map (fun (p : ColorPix) =>
          (contrastVal (frameMean (Frame.color rows)) 1 (p.1 : Rat),
           contrastVal (frameMean (Frame.color rows)) 1 (p.2.1 : Rat),
           contrastVal (frameMean (Frame.color rows)) 1 (p.2.2 : Rat)))) = rows := by
        have hid : rows.map (List.map (fun (p : ColorPix) =>
            (contrastVal (frameMean (Frame.color rows)) 1 (p.1 : Rat),
             contrastVal (frameMean (Frame.color rows)) 1 (p.2.1 : Rat),
             contrastVal (frameMean (Frame.color rows)) 1 (p.2.2 : Rat)))) = rows.map id := by
          apply List.map_congr_left
          intro row hrow
          show List.map _ row = id row
          have hrowid : row.map (fun (p : ColorPix) =>
              (contrastVal (frameMean (Frame.color rows)) 1 (p.1 : Rat),
               contrastVal (frameMean (Frame.color rows)) 1 (p.2.1 : Rat),
               contrastVal (frameMean (Frame.color rows)) 1 (p.2.2 : Rat))) = row.map id := by
            apply List.map_congr_left
            intro p hp
            have hpv : ∀ c : Rat, c ∈ ([(p.1 : Rat), (p.2.1 : Rat), (p.2.2 : Rat)] : List Rat) →
                c ≤ 255 := by
              intro c hc
              apply hv
              show c ∈ frameValues (Frame.color rows)
              unfold frameValues
              exact List.mem_flatten.mpr
                ⟨[(p.1 : Rat), (p.2.1 : Rat), (p.2.2 : Rat)],
                 List.mem_map.mpr ⟨p, List.mem_flatten.mpr ⟨row, hrow, hp⟩, rfl⟩, hc⟩
            have h1 : (p.1 : Rat) ≤ 255 := hpv _ (by simp)
            have h2 : (p.2.1 : Rat) ≤ 255 := hpv _ (by simp)
            have h3 : (p.2.2 : Rat) ≤ 255 := hpv _ (by simp)
            show (contrastVal (frameMean (Frame.color rows)) 1 (p.1 : Rat),
               contrastVal (frameMean (Frame.color rows)) 1 (p.2.1 : Rat),
               contrastVal (frameMean (Frame.color rows)) 1 (p.2.2 : Rat)) = id p
            rw [contrastVal_one _ _ h1, contrastVal_one _ _ h2, contrastVal_one _ _ h3]
            rfl
          rw [hrowid, List.map_id]
          rfl
        rw [hid, List.map_id]
      rw [hmap]
    | gray rows =>
      show Frame.gray (rows.map (List.map (fun (v : Nat) =>
          contrastVal (frameMean (Frame.gray rows)) 1 (v : Rat)))) = Frame.gray rows
      have hmap : rows.map (List.map (fun (v : Nat) =>
          contrastVal (frameMean (Frame.gray rows)) 1 (v : Rat))) = rows := by
        have hid : rows.map (List.map (fun (v : Nat) =>
            contrastVal (frameMean (Frame.gray rows)) 1 (v : Rat))) = rows.map id := by
          apply List.map_congr_left
          intro row hrow
          show List.map _ row = id row
          have hrowid : row.map (fun (v : Nat) =>
              contrastVal (frameMean (Frame.gray rows)) 1 (v : Rat)) = row.map id := by
            apply List.map_congr_left
            intro v hvr
            have hvle : (v : Rat) ≤ 255 := by
              apply hv
              show (v : Rat) ∈ frameValues (Frame.gray rows)
              unfold frameValues
              exact List.mem_map.mpr ⟨v, List.mem_flatten.mpr ⟨row, hrow, hvr⟩, rfl⟩
            show contrastVal (frameMean (Frame.gray rows)) 1 (v : Rat) = id v
            rw [contrastVal_one _ _ hvle]
            rfl
          rw [hrowid, List.map_id]
          rfl
        rw [hid, List.map_id]
      rw [hmap]

/-- C8 witness: the gray pointwise formula at a 1×3 frame and the factor-1
identity at the same frame. -/
theorem C8_witness :
    grayAt (frameGrayRows (enhance_contrast (Frame.gray [[0, 100, 200]]) (3/2))) 2 0 =
      toUint8 (npClip (frameMean (Frame.gray [[0, 100, 200]]) +
        (3/2) * ((grayAt [[0, 100, 200]] 2 0 : Rat) - frameMean (Frame.gray [[0, 100, 200]]))) 0 255) ∧
    enhance_contrast (Frame.gray [[0, 100, 200]]) 1 = Frame.gray [[0, 100, 200]] :=
  ⟨(C8_contrast_enhancer.2.1 [[0, 100, 200]] (3/2) 1 3
      (by refine ⟨rfl, ?_⟩; intro row hr; simp at hr; simp [hr])).2 0 2
      (by norm_num) (by norm_num),
   C8_contrast_enhancer.2.2 (Frame.gray [[0, 100, 200]]) (by decide)⟩

/- ======================================================================
   The sequence-scanner loop: characterization lemmas
   ====================================================================== -/

theorem brightness_flatten_ne (f : Frame) (hf : f.nonempty) :
    (calculate_brightness f).flatten ≠ [] := by
  cases f with
  | color rows =>
    show (rows.map (List.map (fun (p : ColorPix) => (((p.1 : Rat) + p.2.1 + p.2.2) / 3)))).flatten ≠ []
    rw [← List.map_flatten]
    simp only [ne_eq, List.map_eq_nil_iff]
    exact hf
  | gray rows =>
    show (rows.map (List.map (fun (v : Nat) => (v : Rat)))).flatten ≠ []
    rw [← List.map_flatten]
    simp only [ne_eq, List.map_eq_nil_iff]
    exact hf

theorem npMaxE_ok (f : Frame) (hf : f.nonempty) :
    npMaxE (calculate_brightness f) = .ok (frameMax f) := by
  obtain ⟨v, hv, -, -⟩ := max?_spec _ (brightness_flatten_ne f hf)
  unfold npMaxE frameMax npMax
  rw [hv]
  rfl

theorem find_ok (m : BMap) (hm : m.flatten ≠ []) :
    ∃ pt, find_brightest_point m = .ok pt := by
  obtain ⟨v, hv, -, -⟩ := max?_spec m.flatten hm
  have hmax : npMax m = some v := hv
  cases hw : npWhereEq m v with
  | nil => exact ⟨(0, 0), by simp only [find_brightest_point, hmax, hw]⟩
  | cons p rest =>
    obtain ⟨py, px⟩ := p
    exact ⟨(px, py), by simp only [find_brightest_point, hmax, hw]⟩

theorem except_bind_ok {α β : Type} (a : α) (g : α → Except String β) :
    (Except.ok a : Except String α).bind g = g a := rfl

theorem scanStep_eq (st : ScanState) (k : Nat) (f : Frame) (hf : f.nonempty) :
    scanStep st k f =
      if st.global_max_brightness < frameMax f then
        (find_brightest_point (calculate_brightness f)).bind (fun pt =>
          .ok { global_max_brightness := frameMax f, global_brightest_point := pt,
                global_brightest_frame := some st.store.length, global_frame_number := k,
                store := st.store ++ [f] })
      else .ok st := by
  simp only [scanStep]
  rw [npMaxE_ok f hf]
  rfl

theorem scanStep_cases (st : ScanState) (k : Nat) (f : Frame) (hf : f.nonempty) :
    (frameMax f ≤ st.global_max_brightness ∧ scanStep st k f = .ok st) ∨
    (st.global_max_brightness < frameMax f ∧ ∃ pt,
      scanStep st k f = .ok
        { global_max_brightness := frameMax f,
          global_brightest_point := pt,
          global_brightest_frame := some st.store.length,
          global_frame_number := k,
          store := st.store ++ [f] }) := by
  by_cases hc : st.global_max_brightness < frameMax f
  · right
    obtain ⟨pt, hpt⟩ := find_ok (calculate_brightness f) (brightness_flatten_ne f hf)
    exact ⟨hc, pt, by rw [scanStep_eq st k f hf, if_pos hc, hpt, except_bind_ok]⟩
  · left
    exact ⟨le_of_not_lt hc, by rw [scanStep_eq st k f hf, if_neg hc]⟩

theorem gifLoop_cons (N k : Nat) (f : Frame) (rest : List Frame) (st : ScanState) :
    gifLoop N k (f :: rest) st =
      if k % N = 0 then (scanStep st k f).bind (fun st' => gifLoop N (k + 1) rest st')
      else (Except.ok st).bind (fun st' => gifLoop N (k + 1) rest st') := rfl

theorem mod_shift (k j N : Nat) : (k + 1 + j) % N = (k + (j + 1)) % N := by
  have hkj : k + 1 + j = k + (j + 1) := by omega
  rw [hkj]

/-- Full characterization of the scan loop: it succeeds on well-formed
frames, only extends the buffer store, only raises the running maximum,
bounds every evaluated frame's maximum, and either leaves the state
untouched or retains as winner an evaluated frame whose maximum equals the
final running maximum and strictly exceeds every earlier evaluated one. -/
theorem gifLoop_char (N : Nat) :
    ∀ (fs : List Frame) (k : Nat) (st : ScanState),
      (∀ f ∈ fs, f.nonempty) →
      ∃ st', gifLoop N k fs st = .ok st' ∧
        st.store.length ≤ st'.store.length ∧
        (∀ i, i < st.store.length → readStore st'.store i = readStore st.store i) ∧
        st.global_max_brightness ≤ st'.global_max_brightness ∧
        (∀ j, j < fs.length → (k + j) % N = 0 →
          frameMax (fs.getD j default) ≤ st'.global_max_brightness) ∧
        (st' = st ∨
          ∃ j, j < fs.length ∧ (k + j) % N = 0 ∧
            st'.global_frame_number = k + j ∧
            st'.global_max_brightness = frameMax (fs.getD j default) ∧
            st.global_max_brightness < st'.global_max_brightness ∧
            (∃ fid, st'.global_brightest_frame = some fid ∧ fid < st'.store.length ∧
              readStore st'.store fid = fs.getD j default) ∧
            (∀ j', j' < j → (k + j') % N = 0 →
              frameMax (fs.getD j' default) < st'.global_max_brightness)) := by
  intro fs
  induction fs with
  | nil =>
    intro k st _
    exact ⟨st, rfl, le_refl _, fun i _ => rfl, le_refl _, fun j hj _ => absurd hj (by simp),
      Or.inl rfl⟩
  | cons f rest ih =>
    intro k st hne
    have hfne : f.nonempty := hne f (by simp)
    have hrne : ∀ g ∈ rest, g.nonempty := fun g hg => hne g (by simp [hg])
    by_cases hk : k % N = 0
    · rcases scanStep_cases st k f hfne with ⟨hle, hstep⟩ | ⟨hlt, pt, hstep⟩
      · -- evaluated, no update
        obtain ⟨st', heq, hlen, hread, hmax, hub, hdisj⟩ := ih (k + 1) st hrne
        refine ⟨st', ?_, hlen, hread, hmax, ?_, ?_⟩
        · rw [gifLoop_cons, if_pos hk, hstep, except_bind_ok]
          exact heq
        · intro j hj hjev
          cases j with
          | zero =>
            simpa using le_trans hle hmax
          | succ j' =>
            rw [List.getD_cons_succ]
            exact hub j' (by simpa using hj) (by rw [mod_shift]; exact hjev)
        · rcases hdisj with hid | ⟨j, hj, hjev, hnum, hmaxeq, hltmax, hfid, hearlier⟩
          · exact Or.inl hid
          · refine Or.inr ⟨j + 1, by simpa using hj, by rw [← mod_shift]; exact hjev,
              by rw [show k + (j + 1) = k + 1 + j from by omega]; exact hnum, ?_, hltmax, hfid, ?_⟩
            · rw [List.getD_cons_succ]; exact hmaxeq
            · intro j' hj' hj'ev
              cases j' with
              | zero =>
                simpa using lt_of_le_of_lt hle hltmax
              | succ j2 =>
                rw [List.getD_cons_succ]
                exact hearlier j2 (by omega) (by rw [mod_shift]; exact hj'ev)
      · -- evaluated, update: new state st₁
        set st₁ : ScanState :=
          { global_max_brightness := frameMax f, global_brightest_point := pt,
            global_brightest_frame := some st.store.length, global_frame_number := k,
            store := st.store ++ [f] } with hst₁
        obtain ⟨st', heq, hlen, hread, hmax, hub, hdisj⟩ := ih (k + 1) st₁ hrne
        have hlen₁ : st₁.store.length = st.store.length + 1 := by
          rw [hst₁]; simp
        refine ⟨st', ?_, by omega, ?_, ?_, ?_, ?_⟩
        · rw [gifLoop_cons, if_pos hk, hstep, except_bind_ok]
          exact heq
        · intro i hi
          rw [hread i (by omega)]
          exact readStore_append_lt st.store f i hi
        · calc st.global_max_brightness ≤ frameMax f := le_of_lt hlt
            _ = st₁.global_max_brightness := rfl
            _ ≤ st'.global_max_brightness := hmax
        · intro j hj hjev
          cases j with
          | zero =>
            simpa using le_trans (le_of_eq rfl : frameMax f ≤ st₁.global_max_brightness) hmax
          | succ j' =>
            rw [List.getD_cons_succ]
            exact hub j' (by simpa using hj) (by rw [mod_shift]; exact hjev)
        · rcases hdisj with hid | ⟨j, hj, hjev, hnum, hmaxeq, hltmax, ⟨fid, hfid, hfidlt, hfidrd⟩, hearlier⟩
          · -- the head is the final winner
            subst hid
            refine Or.inr ⟨0, by simp, by simpa using hk, by simp [hst₁], by simp [hst₁], ?_, ?_, ?_⟩
            · simpa [hst₁] using hlt
            · refine ⟨st.store.length, by simp [hst₁], by omega, ?_⟩
              show readStore (st.store ++ [f]) st.store.length = f
              exact readStore_append_self st.store f
            · intro j' hj' _; omega
          · -- a later frame is the final winner
            refine Or.inr ⟨j + 1, by simpa using hj, by rw [← mod_shift]; exact hjev,
              by rw [show k + (j + 1) = k + 1 + j from by omega]; exact hnum, ?_, ?_,
              ⟨fid, hfid, hfidlt, hfidrd⟩, ?_⟩
            · rw [List.getD_cons_succ]; exact hmaxeq
            · calc st.global_max_brightness < frameMax f := hlt
                _ = st₁.global_max_brightness := rfl
                _ < st'.global_max_brightness := by
                    rw [hmaxeq] at hltmax ⊢
                    exact hltmax
            · intro j' hj' hj'ev
              cases j' with
              | zero =>
                have : st₁.global_max_brightness < st'.global_max_brightness := hltmax
                simpa using this
              | succ j2 =>
                rw [List.getD_cons_succ]
                exact hearlier j2 (by omega) (by rw [mod_shift]; exact hj'ev)
    · -- not evaluated: state unchanged
      obtain ⟨st', heq, hlen, hread, hmax, hub, hdisj⟩ := ih (k + 1) st hrne
      refine ⟨st', ?_, hlen, hread, hmax, ?_, ?_⟩
      · rw [gifLoop_cons, if_neg hk, except_bind_ok]
        exact heq
      · intro j hj hjev
        cases j with
        | zero => exact absurd (by simpa using hjev) hk
        | succ j' =>
          rw [List.getD_cons_succ]
          exact hub j' (by simpa using hj) (by rw [mod_shift]; exact hjev)
      · rcases hdisj with hid | ⟨j, hj, hjev, hnum, hmaxeq, hltmax, hfid, hearlier⟩
        · exact Or.inl hid
        · refine Or.inr ⟨j + 1, by simpa using hj, by rw [← mod_shift]; exact hjev,
            by rw [show k + (j + 1) = k + 1 + j from by omega]; exact hnum, ?_, hltmax, hfid, ?_⟩
          · rw [List.getD_cons_succ]; exact hmaxeq
          · intro j' hj' hj'ev
            cases j' with
            | zero => exact absurd (by simpa using hj'ev) hk
            | succ j2 =>
              rw [List.getD_cons_succ]
              exact hearlier j2 (by omega) (by rw [mod_shift]; exact hj'ev)

theorem videoLoop_cons (N k : Nat) (f : Frame) (rest : List Frame) (st : ScanState) :
    videoLoop N k (f :: rest) st =
      if k % N = 0 then
        (scanStep st k (cvtColorBGR2RGB f)).bind (fun st' => videoLoop N (k + 1) rest st')
      else (Except.ok st).bind (fun st' => videoLoop N (k + 1) rest st') := rfl

theorem videoLoop_eq_gifLoop (N : Nat) :
    ∀ (fs : List Frame) (k : Nat) (st : ScanState),
      videoLoop N k fs st = gifLoop N k (fs.map cvtColorBGR2RGB) st := by
  intro fs
  induction fs with
  | nil => intro k st; rfl
  | cons f rest ih =>
    intro k st
    rw [List.map_cons, videoLoop_cons, gifLoop_cons]
    by_cases hk : k % N = 0
    · rw [if_pos hk, if_pos hk]
      apply congrArg
      funext st'
      exact ih (k + 1) st'
    · rw [if_neg hk, if_neg hk]
      apply congrArg
      funext st'
      exact ih (k + 1) st'

theorem calculate_brightness_cvt (f : Frame) :
    calculate_brightness (cvtColorBGR2RGB f) = calculate_brightness f := by
  cases f with
  | gray rows => rfl
  | color rows =>
    show (rows.map (List.map (fun (p : ColorPix) => (p.2.2, p.2.1, p.1)))).map
        (List.map (fun (p : ColorPix) => (((p.1 : Rat) + p.2.1 + p.2.2) / 3))) =
      rows.map (List.map (fun (p : ColorPix) => (((p.1 : Rat) + p.2.1 + p.2.2) / 3)))
    rw [List.map_map]
    apply List.map_congr_left
    intro row _
    show (row.map (fun (p : ColorPix) => (p.2.2, p.2.1, p.1))).map
        (fun (p : ColorPix) => (((p.1 : Rat) + p.2.1 + p.2.2) / 3)) =
      row.map (fun (p : ColorPix) => (((p.1 : Rat) + p.2.1 + p.2.2) / 3))
    rw [List.map_map]
    apply List.map_congr_left
    intro p _
    show (((p.2.2 : Rat) + p.2.1 + p.1) / 3) = (((p.1 : Rat) + p.2.1 + p.2.2) / 3)
    ring

theorem frameMax_cvt (f : Frame) : frameMax (cvtColorBGR2RGB f) = frameMax f := by
  unfold frameMax npMax
  rw [calculate_brightness_cvt]

theorem nonempty_cvt (f : Frame) (hf : f.nonempty) : (cvtColorBGR2RGB f).nonempty := by
  cases f with
  | gray rows => exact hf
  | color rows =>
    show (rows.map (List.map (fun (p : ColorPix) => (p.2.2, p.2.1, p.1)))).flatten ≠ []
    rw [← List.map_flatten]
    simp only [ne_eq, List.map_eq_nil_iff]
    exact hf

theorem seqResultOf_none (cfg : Config) (st : ScanState) (total : Nat) (fps : Rat)
    (sr : Nat) (h : st.global_brightest_frame = none) :
    seqResultOf cfg st total fps sr =
      (st.store,
       { brightest_point := st.global_brightest_point,
         max_brightness := st.global_max_brightness, average_brightness := 0,
         brightness_histogram := List.replicate 256 0,
         brightest_frame := none, brightest_frame_marked := none,
         is_video := true, frame_number := st.global_frame_number,
         total_frames := total, fps := fps, sample_rate := sr }) := by
  unfold seqResultOf
  rw [h]

theorem seqResultOf_some_fields (cfg : Config) (st : ScanState) (total : Nat)
    (fps : Rat) (sr : Nat) (fid : Nat) (h : st.global_brightest_frame = some fid) :
    (seqResultOf cfg st total fps sr).2.brightest_frame = some fid ∧
    (seqResultOf cfg st total fps sr).2.brightest_frame_marked = some st.store.length ∧
    (seqResultOf cfg st total fps sr).2.max_brightness = st.global_max_brightness ∧
    (seqResultOf cfg st total fps sr).2.frame_number = st.global_frame_number ∧
    (seqResultOf cfg st total fps sr).2.total_frames = total ∧
    (fid < st.store.length →
      readStore (seqResultOf cfg st total fps sr).1 fid = readStore st.store fid) := by
  unfold seqResultOf
  rw [h]
  refine ⟨rfl, rfl, rfl, rfl, rfl, ?_⟩
  intro hlt
  show readStore (writeStore (st.store ++ [readStore st.store fid]) st.store.length
    (burnMarkers cfg (readStore (st.store ++ [readStore st.store fid]) st.store.length)
      st.global_brightest_point)) fid = readStore st.store fid
  unfold writeStore
  rw [readStore_set_ne _ _ _ _ (by omega), readStore_append_lt _ _ _ hlt]

theorem analyze_gif_eq (cfg : Config) (s : Store) (frames : List Frame) (N : Nat)
    (st' : ScanState) (hne : frames ≠ [])
    (hloop : gifLoop N 0 frames
      { global_max_brightness := 0, global_brightest_point := (0, 0),
        global_brightest_frame := none, global_frame_number := 0, store := s } = .ok st') :
    analyze_gif cfg s frames N = .ok (seqResultOf cfg st' frames.length 10 N) := by
  simp only [analyze_gif]
  rw [if_neg (by simpa using hne), hloop]
  rfl

theorem analyze_video_eq (cfg : Config) (s : Store) (frames : List Frame) (N : Nat)
    (fps : Rat) (st' : ScanState)
    (hloop : gifLoop N 0 (frames.map cvtColorBGR2RGB)
      { global_max_brightness := 0, global_brightest_point := (0, 0),
        global_brightest_frame := none, global_frame_number := 0, store := s } = .ok st') :
    analyze_video cfg s frames N fps = .ok (seqResultOf cfg st' frames.length fps N) := by
  simp only [analyze_video]
  rw [videoLoop_eq_gifLoop, hloop]
  rfl

/-- The post-loop record of a scan over frames `gs` starting from the
initial cursor: the winning index is stride-aligned, the running maximum
bounds every evaluated frame, and a retained winner is the earliest
evaluated frame attaining a strictly positive maximum, stored unannotated
in a buffer distinct from the annotated copy. -/
theorem gifLoop_result_props (cfg : Config) (s : Store) (gs : List Frame) (N : Nat)
    (total : Nat) (fps : Rat) (hg : ∀ f ∈ gs, f.nonempty) :
    ∃ st' s' r,
      gifLoop N 0 gs
        { global_max_brightness := 0, global_brightest_point := (0, 0),
          global_brightest_frame := none, global_frame_number := 0, store := s } = .ok st' ∧
      seqResultOf cfg st' total fps N = (s', r) ∧
      r.frame_number % N = 0 ∧
      (∀ j, j < gs.length → j % N = 0 →
        frameMax (gs.getD j default) ≤ r.max_brightness) ∧
      (∀ fid, r.brightest_frame = some fid →
        r.frame_number < gs.length ∧
        0 < r.max_brightness ∧
        r.max_brightness = frameMax (gs.getD r.frame_number default) ∧
        readStore s' fid = gs.getD r.frame_number default ∧
        (∀ mid, r.brightest_frame_marked = some mid → fid ≠ mid) ∧
        (∀ j, j < r.frame_number → j % N = 0 →
          frameMax (gs.getD j default) < r.max_brightness)) ∧
      ((∃ j, j < gs.length ∧ j % N = 0 ∧ 0 < frameMax (gs.getD j default)) →
        r.brightest_frame.isSome) ∧
      (r.brightest_frame = none →
        st' =
          { global_max_brightness := 0, global_brightest_point := (0, 0),
            global_brightest_frame := none, global_frame_number := 0, store := s }) := by
  obtain ⟨st', hloop, hlen, hread, hmax0, hub, hdisj⟩ := gifLoop_char N gs 0
    { global_max_brightness := 0, global_brightest_point := (0, 0),
      global_brightest_frame := none, global_frame_number := 0, store := s } hg
  cases hwin : st'.global_brightest_frame with
  | none =>
    have hst0 : st' =
        { global_max_brightness := 0, global_brightest_point := (0, 0),
          global_brightest_frame := none, global_frame_number := 0, store := s } := by
      rcases hdisj with h | ⟨j, -, -, -, -, -, ⟨fid, hfid, -, -⟩, -⟩
      · exact h
      · rw [hwin] at hfid
        exact absurd hfid (by simp)
    have hsr := seqResultOf_none cfg st' total fps N hwin
    have hr2 := congrArg Prod.snd hsr
    have hr1 := congrArg Prod.fst hsr
    refine ⟨st', (seqResultOf cfg st' total fps N).1, (seqResultOf cfg st' total fps N).2,
      hloop, (Prod.mk.eta).symm, ?_, ?_, ?_, ?_, ?_⟩
    · rw [hr2, hst0]
      simp
    · intro j hj hjev
      rw [hr2]
      show frameMax (gs.getD j default) ≤ st'.global_max_brightness
      exact hub j hj (by simpa using hjev)
    · intro fid hfid
      rw [hr2] at hfid
      exact absurd hfid (by simp)
    · intro ⟨j, hj1, hj2, hj3⟩
      have hle := hub j hj1 (by simpa using hj2)
      rw [hst0] at hle
      exact absurd (lt_of_lt_of_le hj3 hle) (by simp)
    · intro _
      exact hst0
  | some fid =>
    rcases hdisj with h | ⟨j, hj, hjev, hnum, hmaxeq, hltmax, ⟨fid', hfid', hfidlt, hfidrd⟩,
      hearlier⟩
    · rw [h] at hwin
      exact absurd hwin (by simp)
    · have hfe : fid' = fid := by
        rw [hwin] at hfid'
        exact Option.some.inj hfid'.symm
      subst hfe
      obtain ⟨hbf, hbm, hmaxf, hnumf, htotf, hreadf⟩ :=
        seqResultOf_some_fields cfg st' total fps N fid' hwin
      refine ⟨st', (seqResultOf cfg st' total fps N).1, (seqResultOf cfg st' total fps N).2,
        hloop, (Prod.mk.eta).symm, ?_, ?_, ?_, ?_, ?_⟩
      · rw [hnumf, hnum]
        simpa using hjev
      · intro j2 hj2 hj2ev
        rw [hmaxf]
        exact hub j2 hj2 (by simpa using hj2ev)
      · intro fid2 hfid2
        have hfe2 : fid2 = fid' := by
          rw [hbf] at hfid2
          exact (Option.some.inj hfid2).symm
        subst hfe2
        refine ⟨?_, ?_, ?_, ?_, ?_, ?_⟩
        · rw [hnumf, hnum]
          simpa using hj
        · rw [hmaxf]
          exact hltmax
        · rw [hmaxf, hnumf, hnum]
          simpa using hmaxeq
        · rw [hnumf, hnum, hreadf hfidlt]
          simpa using hfidrd
        · intro mid hmid
          rw [hbm] at hmid
          have : mid = st'.store.length := (Option.some.inj hmid).symm
          omega
        · intro j2 hj2 hj2ev
          rw [hnumf, hnum] at hj2
          rw [hmaxf]
          exact hearlier j2 (by omega) (by simpa using hj2ev)
      · intro _
        rw [hbf]
        rfl
      · intro hnone
        rw [hbf] at hnone
        exact absurd hnone (by simp)

/-- C1: over any frame sequence and positive stride `N`, both scanners
evaluate exactly the frames whose 0-based index is divisible by `N`: the
winning index is always `≡ 0 (mod N)`, the reported maximum bounds every
evaluated frame's per-frame maximum, a retained winner is the earliest
evaluated frame attaining that maximum (strictly greater than every
earlier evaluated frame — so equal maxima keep the earlier frame), a
winner is retained whenever some evaluated frame has positive maximum, and
the stored winning frame is that evaluated frame itself (the video path
stores its BGR→RGB conversion).  A frame with index not divisible by `N`
can never be the winner. -/
theorem C1_sequence_scanner (cfg : Config) (s : Store) (frames : List Frame) (N : Nat)
    (hN : 0 < N) (hf : ∀ f ∈ frames, f.nonempty) (hne : frames ≠ []) :
    (∃ s' r, analyze_gif cfg s frames N = .ok (s', r) ∧
      r.frame_number % N = 0 ∧
      (∀ j, j < frames.length → j % N = 0 →
        frameMax (frames.getD j default) ≤ r.max_brightness) ∧
      (∀ fid, r.brightest_frame = some fid →
        r.frame_number < frames.length ∧
        0 < r.max_brightness ∧
        r.max_brightness = frameMax (frames.getD r.frame_number default) ∧
        readStore s' fid = frames.getD r.frame_number default ∧
        (∀ j, j < r.frame_number → j % N = 0 →
          frameMax (frames.getD j default) < r.max_brightness)) ∧
      ((∃ j, j < frames.length ∧ j % N = 0 ∧ 0 < frameMax (frames.getD j default)) →
        r.brightest_frame.isSome)) ∧
    (∀ fps, ∃ s' r, analyze_video cfg s frames N fps = .ok (s', r) ∧
      r.frame_number % N = 0 ∧
      (∀ j, j < frames.length → j % N = 0 →
        frameMax (frames.getD j default) ≤ r.max_brightness) ∧
      (∀ fid, r.brightest_frame = some fid →
        r.frame_number < frames.length ∧
        0 < r.max_brightness ∧
        r.max_brightness = frameMax (frames.getD r.frame_number default) ∧
        readStore s' fid = cvtColorBGR2RGB (frames.getD r.frame_number default) ∧
        (∀ j, j < r.frame_number → j % N = 0 →
          frameMax (frames.getD j default) < r.max_brightness)) ∧
      ((∃ j, j < frames.length ∧ j % N = 0 ∧ 0 < frameMax (frames.getD j default)) →
        r.brightest_frame.isSome)) := by
  constructor
  · obtain ⟨st', s', r, hloop, hsrq, hmod, hub, hsome, hex, -⟩ :=
      gifLoop_result_props cfg s frames N frames.length 10 hf
    have heq : analyze_gif cfg s frames N = .ok (s', r) := by
      rw [analyze_gif_eq cfg s frames N st' hne hloop, hsrq]
    refine ⟨s', r, heq, hmod, hub, ?_, hex⟩
    intro fid hfid
    obtain ⟨h1, h2, h3, h4, -, h6⟩ := hsome fid hfid
    exact ⟨h1, h2, h3, h4, h6⟩
  · intro fps
    have hf' : ∀ g ∈ frames.map cvtColorBGR2RGB, g.nonempty := by
      intro g hg
      obtain ⟨f, hfm, rfl⟩ := List.mem_map.mp hg
      exact nonempty_cvt f (hf f hfm)
    obtain ⟨st', s', r, hloop, hsrq, hmod, hub, hsome, hex, -⟩ :=
      gifLoop_result_props cfg s (frames.map cvtColorBGR2RGB) N frames.length fps hf'
    have heq : analyze_video cfg s frames N fps = .ok (s', r) := by
      rw [analyze_video_eq cfg s frames N fps st' hloop, hsrq]
    have hgetD : ∀ j, j < frames.length →
        (frames.map cvtColorBGR2RGB).getD j default =
          cvtColorBGR2RGB (frames.getD j default) := by
      intro j hj
      exact getD_map_of_lt frames cvtColorBGR2RGB j hj default default
    have hfm : ∀ j, j < frames.length →
        frameMax ((frames.map cvtColorBGR2RGB).getD j default) =
          frameMax (frames.getD j default) := by
      intro j hj
      rw [hgetD j hj, frameMax_cvt]
    have hlenm : (frames.map cvtColorBGR2RGB).length = frames.length := by simp
    refine ⟨s', r, heq, hmod, ?_, ?_, ?_⟩
    · intro j hj hjev
      rw [← hfm j hj]
      exact hub j (by omega) hjev
    · intro fid hfid
      obtain ⟨h1, h2, h3, h4, -, h6⟩ := hsome fid hfid
      have h1' : r.frame_number < frames.length := by omega
      refine ⟨h1', h2, ?_, ?_, ?_⟩
      · rw [h3, hfm r.frame_number h1']
      · rw [h4, hgetD r.frame_number h1']
      · intro j hj hjev
        rw [← hfm j (by omega)]
        exact h6 j hj hjev
    · intro ⟨j, hj1, hj2, hj3⟩
      refine hex ⟨j, by omega, hj2, ?_⟩
      rw [hfm j hj1]
      exact hj3

/-- C1 witness: the scanner theorem applied with stride 2 to three 1×1
frames of brightness 1, 9, 5: frame 1 is skipped, so the conclusions hold
with the winner drawn from indices 0 and 2 only. -/
theorem C1_witness :
    ∃ s' r, analyze_gif defaultConfig []
        [Frame.gray [[1]], Frame.gray [[9]], Frame.gray [[5]]] 2 = .ok (s', r) ∧
      r.frame_number % 2 = 0 ∧
      (∀ j, j < ([Frame.gray [[1]], Frame.gray [[9]], Frame.gray [[5]]] : List Frame).length →
        j % 2 = 0 →
        frameMax (([Frame.gray [[1]], Frame.gray [[9]], Frame.gray [[5]]] : List Frame).getD j default)
          ≤ r.max_brightness) ∧
      (∀ fid, r.brightest_frame = some fid →
        r.frame_number < ([Frame.gray [[1]], Frame.gray [[9]], Frame.gray [[5]]] : List Frame).length ∧
        0 < r.max_brightness ∧
        r.max_brightness = frameMax
          (([Frame.gray [[1]], Frame.gray [[9]], Frame.gray [[5]]] : List Frame).getD
            r.frame_number default) ∧
        readStore s' fid =
          ([Frame.gray [[1]], Frame.gray [[9]], Frame.gray [[5]]] : List Frame).getD
            r.frame_number default ∧
        (∀ j, j < r.frame_number → j % 2 = 0 →
          frameMax (([Frame.gray [[1]], Frame.gray [[9]], Frame.gray [[5]]] : List Frame).getD
            j default) < r.max_brightness)) ∧
      ((∃ j, j < ([Frame.gray [[1]], Frame.gray [[9]], Frame.gray [[5]]] : List Frame).length ∧
          j % 2 = 0 ∧
          0 < frameMax (([Frame.gray [[1]], Frame.gray [[9]], Frame.gray [[5]]] : List Frame).getD
            j default)) →
        r.brightest_frame.isSome) :=
  (C1_sequence_scanner defaultConfig []
    [Frame.gray [[1]], Frame.gray [[9]], Frame.gray [[5]]] 2
    (by norm_num) (by decide) (by decide)).1

/-- C10: if every evaluated frame of a non-empty sequence has per-frame
maximum brightness 0 (all-black), the strictly-greater comparison against
the initial running maximum 0 never fires, and both scanners return a
result with a null winning frame, point `(0, 0)`, zero max and average
brightness, and an all-zero 256-bin histogram. -/
theorem C10_all_black_null_result (cfg : Config) (s : Store) (frames : List Frame)
    (N : Nat) (hN : 0 < N) (hne : frames ≠ []) (hf : ∀ f ∈ frames, f.nonempty)
    (hblack : ∀ j, j < frames.length → j % N = 0 →
      frameMax (frames.getD j default) = 0) :
    analyze_gif cfg s frames N =
      .ok (s, { brightest_point := (0, 0), max_brightness := 0, average_brightness := 0,
                brightness_histogram := List.replicate 256 0, brightest_frame := none,
                brightest_frame_marked := none, is_video := true, frame_number := 0,
                total_frames := frames.length, fps := 10, sample_rate := N }) ∧
    ∀ fps, analyze_video cfg s frames N fps =
      .ok (s, { brightest_point := (0, 0), max_brightness := 0, average_brightness := 0,
                brightness_histogram := List.replicate 256 0, brightest_frame := none,
                brightest_frame_marked := none, is_video := true, frame_number := 0,
                total_frames := frames.length, fps := fps, sample_rate := N }) := by
  constructor
  · obtain ⟨st', s', r, hloop, hsrq, hmod, hub, hsome, hex, hnonecase⟩ :=
      gifLoop_result_props cfg s frames N frames.length 10 hf
    cases hbf : r.brightest_frame with
    | some fid =>
      exfalso
      obtain ⟨hlt, hpos, hmaxeq, -, -, -⟩ := hsome fid hbf
      rw [hmaxeq, hblack r.frame_number hlt hmod] at hpos
      exact absurd hpos (by simp)
    | none =>
      have hst0 := hnonecase hbf
      rw [analyze_gif_eq cfg s frames N st' hne hloop, hst0,
        seqResultOf_none cfg _ frames.length 10 N rfl]
  · intro fps
    have hf' : ∀ g ∈ frames.map cvtColorBGR2RGB, g.nonempty := by
      intro g hg
      obtain ⟨f, hfm, rfl⟩ := List.mem_map.mp hg
      exact nonempty_cvt f (hf f hfm)
    obtain ⟨st', s', r, hloop, hsrq, hmod, hub, hsome, hex, hnonecase⟩ :=
      gifLoop_result_props cfg s (frames.map cvtColorBGR2RGB) N frames.length fps hf'
    have hlenm : (frames.map cvtColorBGR2RGB).length = frames.length := by simp
    cases hbf : r.brightest_frame with
    | some fid =>
      exfalso
      obtain ⟨hlt, hpos, hmaxeq, -, -, -⟩ := hsome fid hbf
      have hlt' : r.frame_number < frames.length := by omega
      rw [hmaxeq, getD_map_of_lt frames cvtColorBGR2RGB r.frame_number hlt' default default,
        frameMax_cvt, hblack r.frame_number hlt' hmod] at hpos
      exact absurd hpos (by simp)
    | none =>
      have hst0 := hnonecase hbf
      rw [analyze_video_eq cfg s frames N fps st' hloop, hst0,
        seqResultOf_none cfg _ frames.length fps N rfl]

/-- C10 witness: two all-black 1×1 frames at stride 1. -/
theorem C10_witness :
    analyze_gif defaultConfig [] [Frame.gray [[0]], Frame.gray [[0]]] 1 =
      .ok ([], { brightest_point := (0, 0), max_brightness := 0, average_brightness := 0,
                 brightness_histogram := List.replicate 256 0, brightest_frame := none,
                 brightest_frame_marked := none, is_video := true, frame_number := 0,
                 total_frames := 2, fps := 10, sample_rate := 1 }) :=
  (C10_all_black_null_result defaultConfig [] [Frame.gray [[0]], Frame.gray [[0]]] 1
    (by norm_num) (by decide) (by decide) (by decide)).1

/- ======================================================================
   C9 — the Annotator and buffer identity
   ====================================================================== -/

/-- C9, counterexample: the claim says the winning frame and the annotated
copy are distinct buffers in every Analysis Result, but in `analyze_image`
the enhanced frame is handed to `draw_markers` directly, which draws in
place and returns the same buffer: on a 1×1 frame both result fields hold
buffer id 1, whose stored content is the annotated frame (center pixel
painted with the highlight color) and not the enhanced content. -/
theorem except_eq_ok_of_toOption {α : Type} (x : Except String α) (v : α)
    (h : x.toOption = some v) : x = .ok v := by
  cases x with
  | error e => simp [Except.toOption] at h
  | ok a =>
    simp [Except.toOption] at h
    rw [h]

attribute [local semireducible] Rat.add Rat.sub Rat.mul Rat.inv in
theorem C9_counterexample :
    ((analyze_image defaultConfig [] (Frame.color [[(10, 20, 30)]])).map
        (fun p => (p.2.brightest_frame, p.2.brightest_frame_marked,
          readStore p.1 p.2.brightest_frame))).toOption =
      some (1, 1, Frame.color [[(255, 0, 0)]]) ∧
    enhance_contrast (Frame.color [[(10, 20, 30)]]) (3/2) = Frame.color [[(5, 20, 35)]] ∧
    Frame.color [[(255, 0, 0)]] ≠ Frame.color [[(5, 20, 35)]] :=
  ⟨by decide, by decide, by decide⟩

theorem analyze_image_marked (cfg : Config) (s : Store) (image : Frame) (s' : Store)
    (r : ImageResult) (h : analyze_image cfg s image = .ok (s', r)) :
    r.brightest_frame_marked = r.brightest_frame := by
  simp only [analyze_image] at h
  cases hfp : find_brightest_point (calculate_brightness image) with
  | error e =>
    rw [hfp] at h
    exact absurd h (by simp [Bind.bind, Except.bind])
  | ok pt =>
    rw [hfp] at h
    cases hmx : npMaxE (calculate_brightness image) with
    | error e =>
      rw [hmx] at h
      exact absurd h (by simp [Bind.bind, Except.bind])
    | ok mv =>
      rw [hmx] at h
      simp only [Bind.bind, Except.bind, allocStore, draw_markers] at h
      have hpair := Except.ok.inj h
      injection hpair with hs hr
      subst hr
      rfl

/-- C9, amended: `draw_markers` draws in place — it returns the very buffer
it was given, never allocating — so in `analyze_image`, where the enhanced
frame is passed directly, the result's winning frame and annotated frame
are the same buffer; only the sequence paths keep them distinct, because
they pass `draw_markers` a fresh copy of the winner, leaving the stored
winning frame unannotated. -/
theorem C9_amended_annotator_buffers :
    (∀ (cfg : Config) (s : Store) (i : Nat) (pt : Nat × Nat) (mb ab : Rat),
      (draw_markers cfg s i pt mb ab).2 = i ∧
      ((draw_markers cfg s i pt mb ab).1).length = s.length) ∧
    (∀ (cfg : Config) (s : Store) (image : Frame) (s' : Store) (r : ImageResult),
      analyze_image cfg s image = .ok (s', r) →
      r.brightest_frame_marked = r.brightest_frame) ∧
    (∀ (cfg : Config) (s : Store) (frames : List Frame) (N : Nat),
      0 < N → (∀ f ∈ frames, f.nonempty) → frames ≠ [] →
      ∀ (s' : Store) (r : SeqResult), analyze_gif cfg s frames N = .ok (s', r) →
        ∀ fid mid, r.brightest_frame = some fid → r.brightest_frame_marked = some mid →
          fid ≠ mid ∧ readStore s' fid = frames.getD r.frame_number default) ∧
    (∀ (cfg : Config) (s : Store) (frames : List Frame) (N : Nat) (fps : Rat),
      0 < N → (∀ f ∈ frames, f.nonempty) → frames ≠ [] →
      ∀ (s' : Store) (r : SeqResult), analyze_video cfg s frames N fps = .ok (s', r) →
        ∀ fid mid, r.brightest_frame = some fid → r.brightest_frame_marked = some mid →
          fid ≠ mid ∧
          readStore s' fid = cvtColorBGR2RGB (frames.getD r.frame_number default)) := by
  refine ⟨?_, ?_, ?_, ?_⟩
  · intro cfg s i pt mb ab
    exact ⟨rfl, by simp [draw_markers, writeStore]⟩
  · intro cfg s image s' r h
    exact analyze_image_marked cfg s image s' r h
  · intro cfg s frames N hN hf hne s' r h fid mid hfid hmid
    obtain ⟨st', s0, r0, hloop, hsrq, -, -, hsome, -, -⟩ :=
      gifLoop_result_props cfg s frames N frames.length 10 hf
    have heq : analyze_gif cfg s frames N = .ok (s0, r0) := by
      rw [analyze_gif_eq cfg s frames N st' hne hloop, hsrq]
    rw [heq] at h
    have hpair := Except.ok.inj h
    injection hpair with hs0 hr0
    subst hs0
    subst hr0
    obtain ⟨-, -, -, hcontent, hmark, -⟩ := hsome fid hfid
    exact ⟨hmark mid hmid, hcontent⟩
  · intro cfg s frames N fps hN hf hne s' r h fid mid hfid hmid
    have hf' : ∀ g ∈ frames.map cvtColorBGR2RGB, g.nonempty := by
      intro g hg
      obtain ⟨f, hfm, rfl⟩ := List.mem_map.mp hg
      exact nonempty_cvt f (hf f hfm)
    obtain ⟨st', s0, r0, hloop, hsrq, -, -, hsome, -, -⟩ :=
      gifLoop_result_props cfg s (frames.map cvtColorBGR2RGB) N frames.length fps hf'
    have heq : analyze_video cfg s frames N fps = .ok (s0, r0) := by
      rw [analyze_video_eq cfg s frames N fps st' hloop, hsrq]
    rw [heq] at h
    have hpair := Except.ok.inj h
    injection hpair with hs0 hr0
    subst hs0
    subst hr0
    obtain ⟨hlt, -, -, hcontent, hmark, -⟩ := hsome fid hfid
    have hlt' : r0.frame_number < frames.length := by simpa using hlt
    rw [getD_map_of_lt frames cvtColorBGR2RGB r0.frame_number hlt' default default] at hcontent
    exact ⟨hmark mid hmid, hcontent⟩

attribute [local semireducible] Rat.add Rat.sub Rat.mul Rat.inv in
set_option maxRecDepth 10000 in
/-- C9 witness: the amended theorem exercised at concrete inputs — the
aliasing statement for `analyze_image` on a 1×1 color frame, and the
distinct-buffers statements for `analyze_gif` and `analyze_video` on a
single 1×1 gray frame, where the unannotated winner sits in buffer 0 and
the annotated copy in buffer 1. -/
theorem C9_amended_witness :
    (draw_markers defaultConfig [Frame.gray [[1]]] 0 (0, 0) 1 1).2 = 0 ∧
    (1 : Nat) = 1 ∧
    ((0 : Nat) ≠ 1 ∧
      readStore [Frame.gray [[1]], Frame.gray [[255]]] 0 =
        ([Frame.gray [[1]]] : List Frame).getD 0 default) ∧
    ((0 : Nat) ≠ 1 ∧
      readStore [Frame.gray [[1]], Frame.gray [[255]]] 0 =
        cvtColorBGR2RGB (([Frame.gray [[1]]] : List Frame).getD 0 default)) :=
  ⟨(C9_amended_annotator_buffers.1 defaultConfig [Frame.gray [[1]]] 0 (0, 0) 1 1).1,
   C9_amended_annotator_buffers.2.1 defaultConfig [] (Frame.color [[(10, 20, 30)]])
     [Frame.color [[(10, 20, 30)]], Frame.color [[(255, 0, 0)]]]
     { brightest_point := (0, 0), max_brightness := 20, average_brightness := 20,
       brightness_histogram := 1 :: List.replicate 255 0,
       brightest_frame := 1, brightest_frame_marked := 1,
       is_video := false, frame_number := 0 }
     (except_eq_ok_of_toOption _ _ (by decide)),
   C9_amended_annotator_buffers.2.2.1 defaultConfig [] [Frame.gray [[1]]] 1
     (by norm_num) (by decide) (by decide)
     [Frame.gray [[1]], Frame.gray [[255]]]
     { brightest_point := (0, 0), max_brightness := 1, average_brightness := 1,
       brightness_histogram := 1 :: List.replicate 255 0,
       brightest_frame := some 0, brightest_frame_marked := some 1,
       is_video := true, frame_number := 0, total_frames := 1, fps := 10, sample_rate := 1 }
     (except_eq_ok_of_toOption _ _ (by decide)) 0 1 rfl rfl,
   C9_amended_annotator_buffers.2.2.2 defaultConfig [] [Frame.gray [[1]]] 1 30
     (by norm_num) (by decide) (by decide)
     [Frame.gray [[1]], Frame.gray [[255]]]
     { brightest_point := (0, 0), max_brightness := 1, average_brightness := 1,
       brightness_histogram := 1 :: List.replicate 255 0,
       brightest_frame := some 0, brightest_frame_marked := some 1,
       is_video := true, frame_number := 0, total_frames := 1, fps := 30, sample_rate := 1 }
     (except_eq_ok_of_toOption _ _ (by decide)) 0 1 rfl rfl⟩

end BD
